import Mathlib

/-!
# MedScribe — verification of the job-orchestration and note-extraction core

Shallow embedding of the MedScribe repository's core (`src/pipeline.py`,
`src/core/soap_generator.py`, `src/models.py`,
`src/api/services/job_manager.py`) together with proofs settling the frozen
claims C1–C10 about the natural-language specification.

Conventions of the embedding:
* Python `str` is modelled as Lean `String` / `List Char`; Python's substring
  test `p in s` is `containsL`; `str.lower()` is `List.map lcase` with the
  ASCII lowering used by the concrete patterns of the source.
* Python exceptions are modelled by explicit `Except` / error values
  (`PyError`); a function that cannot raise returns a plain value.
* Python float dose arithmetic in the benzodiazepine check is modelled as
  exact decimals (numerator over a power-of-ten denominator, compared by
  cross-multiplication); every dose and ceiling the check manipulates is a
  short decimal literal, exactly representable in binary floating point, so
  the comparison results agree with the source.
* Timestamps are abstract `Nat` ticks supplied as parameters.
-/

namespace MedScribe

/-! ## Data model (`src/models.py`) -/

/-- `ProcessingStatus` of `src/models.py`: the five-value pipeline enum. -/
inductive ProcessingStatus
  | pending
  | transcribing
  | generating
  | completed
  | failed
  deriving DecidableEq, Repr

/-- `TranscriptionResult` of `src/models.py` (the diarization fields,
`confidence` and `duration_seconds` are never inspected by the claims under
verification and are carried opaquely / omitted where unused). -/
structure TranscriptionResult where
  text : String
  language : String
  duration_seconds : Nat
  deriving DecidableEq, Repr

/-- `SOAPNote` of `src/models.py`: exactly the four required text sections.
The optional `diagnosis_codes`, `procedure_codes` and `metrics` fields
default to `None` in the source and are never set or read by any code
path the claims concern; the model therefore records that `SOAPNote`
carries no further text-bearing field — in particular it has **no** field
holding a collection of validation warnings. -/
structure SOAPNote where
  subjective : String
  objective : String
  assessment : String
  plan : String
  deriving DecidableEq, Repr

/-- `ProcessingResult` of `src/models.py`. -/
structure ProcessingResult where
  id : String
  status : ProcessingStatus
  audio_file_path : String
  transcription : Option TranscriptionResult
  soap_note : Option SOAPNote
  error_message : Option String
  created_at : Nat
  completed_at : Option Nat
  processing_time_seconds : Option Nat
  deriving DecidableEq, Repr

/-- Python exceptions as seen by the pipeline's two `except` clauses:
a classified `MedScribeError` (base class of `src/exceptions.py`, carrying
`.message`) or any other exception (carrying its `str(e)` rendering). -/
inductive PyError
  | medscribe (message : String)
  | other (text : String)
  deriving DecidableEq, Repr

/-! ## Progress accounting helper (`src/pipeline.py`, `_ProgressHelper`) -/

namespace ProgressHelper

/-- `_ProgressHelper.TRANSCRIPTION_WEIGHT` (source: 50). -/
def TRANSCRIPTION_WEIGHT : Nat := 50

/-- `_ProgressHelper.GENERATION_WEIGHT` (source: 50). -/
def GENERATION_WEIGHT : Nat := 50

/-- `_ProgressHelper.transcription_progress`: Python
`stage_percent * 50 // 100` (floor division on non-negative ints). -/
def transcription_progress (stage_percent : Nat) : Nat :=
  stage_percent * TRANSCRIPTION_WEIGHT / 100

/-- `_ProgressHelper.generation_progress`: Python
`50 + stage_percent * 50 // 100`. -/
def generation_progress (stage_percent : Nat) : Nat :=
  TRANSCRIPTION_WEIGHT + stage_percent * GENERATION_WEIGHT / 100

end ProgressHelper

/-! ## Pipeline orchestrator (`src/pipeline.py`, `MedicalDocumentationPipeline`)

The orchestrator is modelled with its collaborators passed in explicitly:
`transcribe : String → Except PyError TranscriptionResult` stands for
`self.transcriber.transcribe` (any behaviour: returning normally or raising),
and `generate : String → String → Except PyError SOAPNote` for
`self.soap_generator.generate`.  The progress callback is
`Option Callback`; the pipeline records every invocation it makes as a
`ProgressEvent` and never inspects the callback's outcome — mirroring
`_notify_progress`, which wraps the call in `try/except` and discards any
exception the callback raises. -/

/-- One invocation of the progress callback:
`callback(status, message, progress)`. -/
structure ProgressEvent where
  status : ProcessingStatus
  message : String
  progress : Nat
  deriving DecidableEq, Repr

/-- A progress callback: may return normally or raise; its outcome is
ignored by the pipeline (`_notify_progress` catches everything). -/
def Callback := ProcessingStatus → String → Nat → Except PyError Unit

/-- `MedicalDocumentationPipeline._notify_progress`: invokes the callback if
one is provided, swallowing any exception it raises.  Modelled as the list of
invocations made (empty when no callback is provided). -/
def notifyProgress (cb : Option Callback) (status : ProcessingStatus)
    (message : String) (progress : Nat) : List ProgressEvent :=
  match cb with
  | none => []
  | some _ => [⟨status, message, progress⟩]

/-- The `result.transcription.language or "en"` expression of
`_run_soap_generation`: Python's `or` falls back on the empty string. -/
def detectedLanguage (t : TranscriptionResult) : String :=
  if t.language = "" then "en" else t.language

/-- `MedicalDocumentationPipeline._run_transcription`: three checkpoints
(0%, 50%, 100% of the stage-local range), the collaborator call in between.
Returns the (mutated) result, the exception if the collaborator raised, and
the callback invocations made. -/
def runTranscription (transcribe : String → Except PyError TranscriptionResult)
    (cb : Option Callback) (r : ProcessingResult) :
    ProcessingResult × Option PyError × List ProgressEvent :=
  let ev0 := notifyProgress cb .transcribing "Starting transcription..."
      (ProgressHelper.transcription_progress 0)
  let r1 := { r with status := .transcribing }
  let ev1 := notifyProgress cb .transcribing "Processing audio with Whisper..."
      (ProgressHelper.transcription_progress 50)
  match transcribe r1.audio_file_path with
  | .error e => (r1, some e, ev0 ++ ev1)
  | .ok t =>
      let r2 := { r1 with transcription := some t }
      let ev2 := notifyProgress cb .transcribing "Transcription complete"
          (ProgressHelper.transcription_progress 100)
      (r2, none, ev0 ++ ev1 ++ ev2)

/-- `MedicalDocumentationPipeline._run_soap_generation`: guard on a missing
transcription (a `ValueError`, i.e. an unclassified exception), then four
checkpoints (0%, 30%, 60%, 100% of the stage-local range) around the
collaborator call. -/
def runSoapGeneration (generate : String → String → Except PyError SOAPNote)
    (cb : Option Callback) (r : ProcessingResult) :
    ProcessingResult × Option PyError × List ProgressEvent :=
  match r.transcription with
  | none => (r, some (.other "Cannot generate SOAP without transcription"), [])
  | some t =>
      let ev0 := notifyProgress cb .generating "Starting SOAP generation..."
          (ProgressHelper.generation_progress 0)
      let r1 := { r with status := .generating }
      let ev1 := notifyProgress cb .generating "Analyzing transcription..."
          (ProgressHelper.generation_progress 30)
      let ev2 := notifyProgress cb .generating "Generating SOAP note with LLM..."
          (ProgressHelper.generation_progress 60)
      match generate t.text (detectedLanguage t) with
      | .error e => (r1, some e, ev0 ++ ev1 ++ ev2)
      | .ok note =>
          let r2 := { r1 with soap_note := some note }
          let ev3 := notifyProgress cb .generating "SOAP note generated"
              (ProgressHelper.generation_progress 100)
          (r2, none, ev0 ++ ev1 ++ ev2 ++ ev3)

/-- `result.error_message` set by the two `except` clauses of `process`:
a classified `MedScribeError` is recorded verbatim, anything else is wrapped
as `"Unexpected error: …"`. -/
def errorMessageOf : PyError → String
  | .medscribe m => m
  | .other s => "Unexpected error: " ++ s

/-- The message passed to the failure progress notification. -/
def failNotifyMessage : PyError → String
  | .medscribe m => "Error: " ++ m
  | .other s => "Unexpected error: " ++ s

/-- Terminal failure bookkeeping shared by both `except` clauses of
`process` / `aprocess`. -/
def markFailed (r : ProcessingResult) (e : PyError) (now₂ : Nat) :
    ProcessingResult :=
  { r with status := .failed
           error_message := some (errorMessageOf e)
           completed_at := some now₂ }

/-- `MedicalDocumentationPipeline.process`: runs transcription then SOAP
generation, converts any exception into a terminal `failed` result, and on
success finalizes with `completed`, a completion timestamp and the elapsed
duration.  `now₁`/`now₂` are the two `datetime.now()` readings.  Returns the
result together with every callback invocation made. -/
def process (transcribe : String → Except PyError TranscriptionResult)
    (generate : String → String → Except PyError SOAPNote)
    (cb : Option Callback) (jobId audio_path : String) (now₁ now₂ : Nat) :
    ProcessingResult × List ProgressEvent :=
  let r0 : ProcessingResult :=
    { id := jobId, status := .pending, audio_file_path := audio_path
      transcription := none, soap_note := none, error_message := none
      created_at := now₁, completed_at := none
      processing_time_seconds := none }
  let s1 := runTranscription transcribe cb r0
  match s1.2.1 with
  | some e =>
      (markFailed s1.1 e now₂,
       s1.2.2 ++ notifyProgress cb .failed (failNotifyMessage e) 0)
  | none =>
      let s2 := runSoapGeneration generate cb s1.1
      match s2.2.1 with
      | some e =>
          (markFailed s2.1 e now₂,
           s1.2.2 ++ s2.2.2 ++ notifyProgress cb .failed (failNotifyMessage e) 0)
      | none =>
          let dur := now₂ - now₁
          let rC := { s2.1 with status := .completed
                                completed_at := some now₂
                                processing_time_seconds := some dur }
          (rC, s1.2.2 ++ s2.2.2 ++
            notifyProgress cb .completed
              ("Processing complete in " ++ toString dur ++ "s") 100)

/-- `MedicalDocumentationPipeline.aprocess`: the asynchronous twin of
`process`.  The source duplicates the exact same state transitions and
checkpoints (awaiting the collaborators instead of calling them); with the
suspension points erased its behaviour is the same function of the
collaborator outcomes, which the duplicated body below mirrors. -/
def aprocess (transcribe : String → Except PyError TranscriptionResult)
    (generate : String → String → Except PyError SOAPNote)
    (cb : Option Callback) (jobId audio_path : String) (now₁ now₂ : Nat) :
    ProcessingResult × List ProgressEvent :=
  let r0 : ProcessingResult :=
    { id := jobId, status := .pending, audio_file_path := audio_path
      transcription := none, soap_note := none, error_message := none
      created_at := now₁, completed_at := none
      processing_time_seconds := none }
  let s1 := runTranscription transcribe cb r0
  match s1.2.1 with
  | some e =>
      (markFailed s1.1 e now₂,
       s1.2.2 ++ notifyProgress cb .failed (failNotifyMessage e) 0)
  | none =>
      let s2 := runSoapGeneration generate cb s1.1
      match s2.2.1 with
      | some e =>
          (markFailed s2.1 e now₂,
           s1.2.2 ++ s2.2.2 ++ notifyProgress cb .failed (failNotifyMessage e) 0)
      | none =>
          let dur := now₂ - now₁
          let rC := { s2.1 with status := .completed
                                completed_at := some now₂
                                processing_time_seconds := some dur }
          (rC, s1.2.2 ++ s2.2.2 ++
            notifyProgress cb .completed
              ("Processing complete in " ++ toString dur ++ "s") 100)

/-! ## Job record store (`src/api/services/job_manager.py`, `JobManager`)

The in-memory branch of `JobManager` (the Redis branch performs the same
record transformation plus persistence/publish).  Job records are the
dictionaries built by `create_job`; `status` is a plain string in the source,
so it is a plain `String` here.  Timestamps are abstract `Nat` ticks standing
for `datetime.utcnow().isoformat()`. -/

/-- The job dictionary created by `JobManager.create_job`. -/
structure JobRecord where
  job_id : String
  job_type : String
  status : String
  progress : Int
  current_stage : Option String
  result : Option String
  error : Option String
  created_at : Nat
  updated_at : Nat
  deriving DecidableEq, Repr

/-- The in-memory `self._jobs` dictionary: newest binding first. -/
def JobStore := List (String × JobRecord)

/-- Dictionary lookup (`self._jobs.get(job_id)`). -/
def getJob (σ : JobStore) (jobId : String) : Option JobRecord :=
  (σ.find? (fun p => p.1 = jobId)).map (fun p => p.2)

/-- Dictionary write (`self._jobs[job_id] = job_data`): newest wins. -/
def putJob (σ : JobStore) (jobId : String) (rec : JobRecord) : JobStore :=
  (jobId, rec) :: σ

/-- `JobManager.create_job`: a fresh record in `pending` status with
progress 0 (the uuid is passed in; the source generates it). -/
def create_job (σ : JobStore) (jobId jobType : String) (now : Nat) : JobStore :=
  putJob σ jobId
    { job_id := jobId, job_type := jobType, status := "pending",
      progress := 0, current_stage := none, result := none, error := none,
      created_at := now, updated_at := now }

/-- The partial-field dictionary passed to `JobManager.update_job`
(only the fields the setters actually pass are modelled). -/
structure JobUpdates where
  status : Option String := none
  progress : Option Int := none
  current_stage : Option (Option String) := none
  result : Option (Option String) := none
  error : Option (Option String) := none

/-- `job_data.update(updates)` followed by refreshing `updated_at`. -/
def applyUpdates (j : JobRecord) (u : JobUpdates) (now : Nat) : JobRecord :=
  { j with status := u.status.getD j.status,
           progress := u.progress.getD j.progress,
           current_stage := u.current_stage.getD j.current_stage,
           result := u.result.getD j.result,
           error := u.error.getD j.error,
           updated_at := now }

/-- `JobManager.update_job`: `ValueError` on an unknown id, otherwise merge
the partial fields, refresh `updated_at`, re-store. -/
def update_job (σ : JobStore) (jobId : String) (u : JobUpdates) (now : Nat) :
    Except String JobStore :=
  match getJob σ jobId with
  | none => .error ("Job " ++ jobId ++ " not found")
  | some j => .ok (putJob σ jobId (applyUpdates j u now))

/-- `JobManager.set_job_progress`: status is set to the literal string
`"processing"`; the stage argument goes into `current_stage`. -/
def set_job_progress (σ : JobStore) (jobId : String) (progress : Int)
    (stage : String) (now : Nat) : Except String JobStore :=
  update_job σ jobId
    { status := some "processing", progress := some progress,
      current_stage := some (some stage) } now

/-- `JobManager.set_job_completed`. -/
def set_job_completed (σ : JobStore) (jobId : String) (result : String)
    (now : Nat) : Except String JobStore :=
  update_job σ jobId
    { status := some "completed", progress := some 100,
      current_stage := some (some "completed"), result := some (some result) } now

/-- `JobManager.set_job_failed`: progress and stage are left as last known. -/
def set_job_failed (σ : JobStore) (jobId : String) (error : String)
    (now : Nat) : Except String JobStore :=
  update_job σ jobId { status := some "failed", error := some (some error) } now

/-- One job-store setter invocation, for reasoning about operation
sequences. -/
inductive JobOp
  | progress (p : Int) (stage : String)
  | complete (result : String)
  | fail (error : String)

/-- Apply one setter. -/
def applyJobOp (σ : JobStore) (jobId : String) (now : Nat) :
    JobOp → Except String JobStore
  | .progress p stage => set_job_progress σ jobId p stage now
  | .complete res => set_job_completed σ jobId res now
  | .fail err => set_job_failed σ jobId err now

/-- Run a sequence of setters, each with its own timestamp. -/
def runJobOps (σ : JobStore) (jobId : String) :
    List (JobOp × Nat) → Except String JobStore
  | [] => .ok σ
  | (op, now) :: rest =>
      match applyJobOp σ jobId now op with
      | .error e => .error e
      | .ok σ' => runJobOps σ' jobId rest

/-- The four status strings the job record store actually produces. -/
def storeStatuses : List String := ["pending", "processing", "completed", "failed"]

/-- The five-value pipeline status enum as strings (`ProcessingStatus` of
`src/models.py`), which claim C3 asserts job records stay within. -/
def fiveValueStatuses : List String :=
  ["pending", "transcribing", "generating", "completed", "failed"]

/-! ## String primitives

Python string operations used by the generator and validators, modelled over
`List Char`.  `lcase`/`ucase` are the ASCII case maps (the source's patterns
and keyword lists are pure ASCII, so `str.lower()`/`str.upper()` agree with
them on every character the checks inspect); `isPySpace` is the ASCII part of
Python's `\s` / `str.isspace` (space, tab, newline, carriage return, vertical
tab, form feed). -/

/-- ASCII lower-casing of one character (`str.lower`). -/
def lcase (c : Char) : Char :=
  if 'A' ≤ c ∧ c ≤ 'Z' then Char.ofNat (c.toNat + 32) else c

/-- ASCII upper-casing of one character (`str.upper`). -/
def ucase (c : Char) : Char :=
  if 'a' ≤ c ∧ c ≤ 'z' then Char.ofNat (c.toNat - 32) else c

/-- ASCII whitespace as matched by Python's `\s` and stripped by
`str.strip()`. -/
def isPySpace (c : Char) : Bool :=
  c = ' ' || c = '\t' || c = '\n' || c = '\r' ||
  c.toNat = 11 || c.toNat = 12

/-- ASCII decimal digit (`\d`). -/
def isDigitC (c : Char) : Bool := '0' ≤ c && c ≤ '9'

/-- `startsWithL p s`: `s` begins with `p` (exact characters). -/
def startsWithL : List Char → List Char → Bool
  | [], _ => true
  | _ :: _, [] => false
  | p :: ps, c :: cs => p = c && startsWithL ps cs

/-- Python's substring test `p in s`. -/
def containsL (p : List Char) : List Char → Bool
  | [] => startsWithL p []
  | c :: cs => startsWithL p (c :: cs) || containsL p cs

/-- Lower-case a whole string (`s.lower()`). -/
def lowerL (l : List Char) : List Char := l.map lcase

/-- `s.strip()`: drop leading and trailing whitespace. -/
def stripL (l : List Char) : List Char :=
  ((l.dropWhile isPySpace).reverse.dropWhile isPySpace).reverse

/-- String-level wrapper for `p in s`. -/
def containsS (p s : String) : Bool := containsL p.data s.data

/-- String-level `s.lower()`. -/
def lowerS (s : String) : String := ⟨lowerL s.data⟩

/-- String-level `s.strip()`. -/
def stripS (s : String) : String := ⟨stripL s.data⟩

/-- ASCII letter (`[A-Z]` under `re.IGNORECASE`). -/
def isAsciiLetter (c : Char) : Bool :=
  ('A' ≤ c && c ≤ 'Z') || ('a' ≤ c && c ≤ 'z')

/-- Case-insensitive `startsWithL` (ASCII folding, as performed by
`re.IGNORECASE` on the source's ASCII patterns). -/
def startsWithCIL : List Char → List Char → Bool
  | [], _ => true
  | _ :: _, [] => false
  | p :: ps, c :: cs => lcase p = lcase c && startsWithCIL ps cs

/-! ## Clinical safety validator
(`src/core/soap_generator.py`, `_validate_clinical_safety` /
`_validate_icd10_codes`)

Warning strings follow the source messages (single-quote characters of the
source text are elided). -/

/-- `ipv_keywords` of `_validate_clinical_safety`. -/
def ipv_keywords : List String :=
  ["intimate partner violence", "ipv", "domestic violence",
   "domestic abuse", "partner abuse", "spousal abuse",
   "physical abuse", "assault", "violence by partner",
   "violence by spouse", "relationship violence"]

/-- `unsafe_phrases` of `_validate_clinical_safety`. -/
def unsafe_phrases : List String :=
  ["with partner", "with spouse", "with abuser",
   "include partner", "include spouse",
   "discuss with partner", "discuss with spouse",
   "involve partner", "involve spouse",
   "partner in safety", "spouse in safety"]

/-- `safety_resources` of `_validate_clinical_safety`. -/
def safety_resources : List String :=
  ["hotline", "shelter", "crisis", "emergency contact",
   "safe", "confidential", "resource"]

/-- The critical-safety warning emitted for an unsafe phrase. -/
def criticalSafetyWarning (phrase : String) : String :=
  "⚠️  CRITICAL SAFETY ISSUE: IPV case contains unsafe phrase " ++ phrase ++
  " in safety plan. Safety planning must NEVER include the abuser/partner. " ++
  "Patient safety may be compromised."

/-- The lesser warning emitted when no safety resource is mentioned. -/
def missingResourcesWarning : String :=
  "⚠️  WARNING: IPV case detected but no safety resources (hotline, shelter, " ++
  "crisis line) mentioned in plan. Consider adding patient-centered safety resources."

/-- One step of `re.findall` for the ICD-10 pattern
`icd-10:\s*([A-Z]\d{2}(?:\.\d{1,2})?)` (`re.IGNORECASE`): attempt a match at
the head of `s`, returning the captured code and the suffix after the match. -/
def matchIcdAt (s : List Char) : Option (List Char × List Char) :=
  if startsWithCIL "icd-10:".data s then
    let s1 := (s.drop 7).dropWhile isPySpace
    match s1 with
    | a :: d1 :: d2 :: rest =>
        if isAsciiLetter a && isDigitC d1 && isDigitC d2 then
          match rest with
          | '.' :: e1 :: more =>
              if isDigitC e1 then
                match more with
                | e2 :: more2 =>
                    if isDigitC e2 then some ([a, d1, d2, '.', e1, e2], more2)
                    else some ([a, d1, d2, '.', e1], more)
                | [] => some ([a, d1, d2, '.', e1], [])
              else some ([a, d1, d2], rest)
          | _ => some ([a, d1, d2], rest)
        else none
    | _ => none
  else none

/-- Left-to-right non-overlapping scan (`re.findall` for the ICD pattern);
`fuel` bounds the number of scan steps (one position or one match each). -/
def icdFindAux : Nat → List Char → List (List Char)
  | 0, _ => []
  | _ + 1, [] => []
  | fuel + 1, c :: cs =>
      match matchIcdAt (c :: cs) with
      | some (code, rest) => code :: icdFindAux fuel rest
      | none => icdFindAux fuel cs

/-- `re.findall(icd_pattern, assessment, re.IGNORECASE)`. -/
def icdFindall (s : List Char) : List (List Char) :=
  icdFindAux (s.length + 1) s

/-- Upper-case a whole code (`code.upper()`). -/
def upperL (l : List Char) : List Char := l.map ucase

/-- F32-for-anxiety hallucination warning. -/
def icdF32Warning (code : String) : String :=
  "⚠️  ICD-10 HALLUCINATION: Code " ++ code ++
  " is for Major Depressive Disorder, but diagnosis mentions anxiety. " ++
  "F32.X codes are for depression, NOT anxiety. Anxiety disorders use " ++
  "F41.X codes. This is a common hallucination error."

/-- External-cause-code-as-primary-diagnosis warning. -/
def icdExternalWarning (code : String) : String :=
  "⚠️  ICD-10 ERROR: Code " ++ code ++
  " is an External Cause code (accidents, assaults, events). These should " ++
  "NOT be used as primary diagnoses for medical conditions. Example " ++
  "hallucination: X34.0 (earthquake victim) for IPV."

/-- F41-for-depression mismatch warning. -/
def icdF41Warning (code : String) : String :=
  "⚠️  ICD-10 MISMATCH: Code " ++ code ++
  " is for anxiety disorders, but diagnosis primarily mentions depression. " ++
  "Consider F32.X codes instead."

/-- `OllamaSOAPGenerator._validate_icd10_codes`. -/
def validate_icd10_codes (note : SOAPNote) : List String :=
  let assessment_lower := lowerL note.assessment.data
  ((icdFindall note.assessment.data).map (fun code =>
    let cu := upperL code
    (if startsWithL ['F', '3', '2'] cu &&
        containsL "anxiety".data assessment_lower then
       [icdF32Warning ⟨cu⟩] else []) ++
    (if (startsWithL ['X'] cu || startsWithL ['Y'] cu) &&
        !(containsL "external cause".data assessment_lower ||
          containsL "secondary".data assessment_lower) then
       [icdExternalWarning ⟨cu⟩] else []) ++
    (if startsWithL ['F', '4', '1'] cu &&
        containsL "depress".data assessment_lower &&
        !containsL "anxiety".data assessment_lower then
       [icdF41Warning ⟨cu⟩] else []))).flatten

/-- `OllamaSOAPGenerator._validate_clinical_safety`: the IPV safety-plan
checks followed by the ICD-10 code checks. -/
def validate_clinical_safety (note : SOAPNote) : List String :=
  let assessment_lower := lowerS note.assessment
  let plan_lower := lowerS note.plan
  let is_ipv_case := ipv_keywords.any (fun kw => containsS kw assessment_lower)
  let ipvWarnings :=
    if is_ipv_case then
      (unsafe_phrases.filterMap (fun phrase =>
        if containsS phrase plan_lower then some (criticalSafetyWarning phrase)
        else none)) ++
      (if safety_resources.any (fun r => containsS r plan_lower) then []
       else [missingResourcesWarning])
    else []
  ipvWarnings ++ validate_icd10_codes note

/-! ## Clinical logic validator
(`src/core/soap_generator.py`, `_validate_clinical_logic`)

The regular expressions of the source are embedded as specialized matchers.
Each pattern is deterministic after greedy/lazy analysis: every `\s*`/`\s+`/
`\d+` run is maximal and no backtracking can rescue a failed literal, because
the character classes involved are disjoint from the literals that follow. -/

/-- `\s*[:=]?\s*` — the separator between a vital-sign label and its
number. -/
def afterSep (s : List Char) : List Char :=
  let s1 := s.dropWhile isPySpace
  let s2 := match s1 with
    | c :: cs => if c = ':' || c = '=' then cs else s1
    | [] => []
  s2.dropWhile isPySpace

/-- `\d+` at the head: the suffix after the digit run, or `none` if there is
no digit. -/
def digitRun (s : List Char) : Option (List Char) :=
  if (s.takeWhile isDigitC) = [] then none else some (s.dropWhile isDigitC)

/-- `\s*[:=]?\s*\d+` matches at the head. -/
def matchesNum (s : List Char) : Bool := (digitRun (afterSep s)).isSome

/-- `\s*[:=]?\s*\d+[/]\d+` matches at the head. -/
def matchesNumSlashNum (s : List Char) : Bool :=
  match digitRun (afterSep s) with
  | some ('/' :: rest) => !((rest.takeWhile isDigitC) = [])
  | _ => false

/-- `t\s*[:=]?\s*\d+\.?\d*\s*°?[fc]` without the leading `t`. -/
def matchesTempTail (s : List Char) : Bool :=
  match digitRun (afterSep s) with
  | some rest =>
      let r1 := match rest with
        | '.' :: t => t.dropWhile isDigitC
        | _ => rest
      let r2 := r1.dropWhile isPySpace
      let r3 := match r2 with
        | '°' :: t => t
        | _ => r2
      match r3 with
      | c :: _ => c = 'f' || c = 'c'
      | [] => false
  | none => false

/-- A single vital-sign pattern matching at the head of the (lowered)
subjective text. -/
def vitalAt (s : List Char) : Bool :=
  (startsWithL "bp".data s && matchesNumSlashNum (s.drop 2)) ||
  (startsWithL "blood pressure".data s && matchesNumSlashNum (s.drop 14)) ||
  (startsWithL "hr".data s && matchesNum (s.drop 2)) ||
  (startsWithL "heart rate".data s && matchesNum (s.drop 10)) ||
  (startsWithL "rr".data s && matchesNum (s.drop 2)) ||
  (startsWithL "respiratory rate".data s && matchesNum (s.drop 16)) ||
  (startsWithL "temperature".data s && matchesNum (s.drop 11)) ||
  (startsWithL "t".data s && matchesTempTail (s.drop 1)) ||
  (startsWithL "o2".data s &&
    (let s1 := (s.drop 2).dropWhile isPySpace
     startsWithL "sat".data s1 && matchesNum (s1.drop 3)))

/-- `re.search` of any of the nine `vital_patterns` over the subjective
text (the source breaks after the first pattern that fires; the emitted
warning is a fixed string either way). -/
def vitalSearch (s : List Char) : Bool := s.tails.any vitalAt

/-- Fixed warning for vitals in the subjective section. -/
def vitalStructureWarning : String :=
  "⚠️  STRUCTURE ERROR: Vital sign measurement found in SUBJECTIVE section. " ++
  "All vital signs (BP, HR, RR, T, O2 sat) must be in OBJECTIVE section only. " ++
  "ROS should contain patient-reported symptoms, not measured values."

/-- `pain_meds` of `_validate_clinical_logic`. -/
def pain_meds : List String :=
  ["ibuprofen", "acetaminophen", "naproxen", "aspirin",
   "tylenol", "advil", "motrin", "aleve",
   "oxycodone", "hydrocodone", "morphine", "tramadol"]

/-- `pain_keywords` of `_validate_clinical_logic`. -/
def pain_keywords : List String :=
  ["pain", "tender", "ache", "sore", "discomfort", "hurts", "painful"]

/-- Fixed warning for undocumented pain medication. -/
def painMedicationWarning : String :=
  "⚠️  CLINICAL LOGIC ERROR: Pain medication prescribed but no pain documented " ++
  "in Subjective or Objective sections. Treatment must be supported by documented findings."

/-- The lookahead `(?=\n\d+\.|\n[A-Z]|$)` of the medication-section pattern.
Without `re.MULTILINE`, `$` matches at the end of the text or just before a
final newline; `[A-Z]` never fires on the lowered plan but is kept
faithfully. -/
def medsStop : List Char → Bool
  | [] => true
  | '\n' :: rest =>
      (rest = []) ||
      (!(rest.takeWhile isDigitC = []) &&
        startsWithL ['.'] (rest.dropWhile isDigitC)) ||
      (match rest with
       | c :: _ => 'A' ≤ c && c ≤ 'Z'
       | [] => false)
  | _ => false

/-- Lazy capture `(.*?)` up to the first position where `stop` holds
(`stop [] = true` plays the role of `$`). -/
def captureUntilStop (stop : List Char → Bool) : List Char → List Char × List Char
  | [] => ([], [])
  | c :: cs =>
      if stop (c :: cs) then ([], c :: cs)
      else
        let p := captureUntilStop stop cs
        (c :: p.1, p.2)

/-- `medications?[:]\s*(.*?)(?=\n\d+\.|\n[A-Z]|$)` matching at the head:
returns the captured group. -/
def medsMatchAt (s : List Char) : Option (List Char) :=
  if startsWithL "medications:".data s then
    some (captureUntilStop medsStop ((s.drop 12).dropWhile isPySpace)).1
  else if startsWithL "medication:".data s then
    some (captureUntilStop medsStop ((s.drop 11).dropWhile isPySpace)).1
  else none

/-- `re.search` for the medication section: leftmost match. -/
def findMedsSection : List Char → Option (List Char)
  | [] => medsMatchAt []
  | c :: cs =>
      match medsMatchAt (c :: cs) with
      | some g => some g
      | none => findMedsSection cs

/-- `exclude_terms` of the no-significant-findings check. -/
def exclude_terms : List String := ["vitamin", "supplement", "follow-up", "continue"]

/-- Fixed warning for medications despite no significant findings. -/
def noFindingsMedicationWarning : String :=
  "⚠️  CLINICAL LOGIC WARNING: Objective section states no significant findings " ++
  "but medications are prescribed in Plan. Ensure findings support treatment."

/-- `(tid|bid|qid)` at the head: the matched token and the suffix. -/
def freqTok (s : List Char) : Option (List Char × List Char) :=
  if startsWithL "tid".data s then some ("tid".data, s.drop 3)
  else if startsWithL "bid".data s then some ("bid".data, s.drop 3)
  else if startsWithL "qid".data s then some ("qid".data, s.drop 3)
  else none

/-- `(prn|as\s+needed)` at the head: the matched text and the suffix. -/
def prnTok (s : List Char) : Option (List Char × List Char) :=
  if startsWithL "prn".data s then some ("prn".data, s.drop 3)
  else if startsWithL "as".data s then
    let r1 := s.drop 2
    let w := r1.takeWhile isPySpace
    if w = [] then none
    else
      let r2 := r1.dropWhile isPySpace
      if startsWithL "needed".data r2 then
        some ("as".data ++ w ++ "needed".data, r2.drop 6)
      else none
  else none

/-- `(tid|bid|qid)\s+(prn|as\s+needed)` at the head: the matched text. -/
def tidPrnAt (s : List Char) : Option (List Char) :=
  match freqTok s with
  | some (t1, r1) =>
      let w := r1.takeWhile isPySpace
      if w = [] then none
      else
        match prnTok (r1.dropWhile isPySpace) with
        | some (t2, _) => some (t1 ++ w ++ t2)
        | none => none
  | none => none

/-- `(prn|as\s+needed)\s+(tid|bid|qid)` at the head: the matched text. -/
def prnTidAt (s : List Char) : Option (List Char) :=
  match prnTok s with
  | some (t1, r1) =>
      let w := r1.takeWhile isPySpace
      if w = [] then none
      else
        match freqTok (r1.dropWhile isPySpace) with
        | some (t2, _) => some (t1 ++ w ++ t2)
        | none => none
  | none => none

/-- `(tid|bid|qid).*\s+(prn|as\s+needed)` at the head (no `re.DOTALL`: `.`
excludes newlines, the `\s+` may contain them).  The greedy `.*` picks the
longest newline-free gap admitting `\s+` and a PRN token after it. -/
def tidGapPrnAt (s : List Char) : Option (List Char) :=
  match freqTok s with
  | some (t1, r1) =>
      let m := (r1.takeWhile (fun c => !(c = '\n'))).length
      ((List.range (m + 1)).reverse.findSome? (fun j =>
        let rest := r1.drop j
        let w := rest.takeWhile isPySpace
        if w = [] then none
        else
          match prnTok (rest.dropWhile isPySpace) with
          | some (t2, _) => some (t1 ++ r1.take j ++ w ++ t2)
          | none => none))
  | none => none

/-- `re.search` with a positional matcher: leftmost match text. -/
def searchFirst (pAt : List Char → Option (List Char)) :
    List Char → Option (List Char)
  | [] => pAt []
  | c :: cs =>
      match pAt (c :: cs) with
      | some g => some g
      | none => searchFirst pAt cs

/-- Contradictory-frequency warning, parameterized by the matched
fragment. -/
def tidPrnWarning (fragment : String) : String :=
  "⚠️  MEDICATION ERROR: Found contradictory frequency " ++ fragment ++
  ". TID/BID/QID means scheduled (at set times). PRN/as needed means when " ++
  "patient decides. Cannot be both! Choose one: either scheduled " ++
  "(TID/BID/QID) OR as needed (PRN)."

/-- `tid_prn_patterns` loop: try the three patterns in order, warn once. -/
def tidPrnWarnings (plan_lower : List Char) : List String :=
  match searchFirst tidPrnAt plan_lower with
  | some g => [tidPrnWarning ⟨g⟩]
  | none =>
      match searchFirst prnTidAt plan_lower with
      | some g => [tidPrnWarning ⟨g⟩]
      | none =>
          match searchFirst tidGapPrnAt plan_lower with
          | some g => [tidPrnWarning ⟨g⟩]
          | none => []

/-- The optional fraction `(?:\.\d+)?` after the integer dose digits: the
matched fraction (empty when the group does not participate) and the
remainder. -/
def fracSplit (r3 : List Char) : List Char × List Char :=
  match r3 with
  | '.' :: t =>
      if (t.takeWhile isDigitC) = [] then ([], r3)
      else ('.' :: t.takeWhile isDigitC, t.dropWhile isDigitC)
  | _ => ([], r3)

/-- `name\s+(\d+(?:\.\d+)?)\s*mg` matching at the head of the (lowered)
plan: the captured dose string and the suffix after the match. -/
def benzoMatchAt (drug : List Char) (s : List Char) : Option (List Char × List Char) :=
  if startsWithL drug s then
    let r1 := s.drop drug.length
    let w := r1.takeWhile isPySpace
    if w = [] then none
    else
      let r2 := r1.dropWhile isPySpace
      let d := r2.takeWhile isDigitC
      if d = [] then none
      else
        let r3 := r2.dropWhile isDigitC
        let fr := fracSplit r3
        let r5 := fr.2.dropWhile isPySpace
        if startsWithL "mg".data r5 then some (d ++ fr.1, r5.drop 2)
        else none
  else none

/-- Left-to-right non-overlapping scan (`re.findall` for one benzo pattern);
`fuel` bounds the number of scan steps. -/
def benzoFindAux (drug : List Char) : Nat → List Char → List (List Char)
  | 0, _ => []
  | _ + 1, [] => []
  | fuel + 1, c :: cs =>
      match benzoMatchAt drug (c :: cs) with
      | some (cap, rest) => cap :: benzoFindAux drug fuel rest
      | none => benzoFindAux drug fuel cs

/-- `re.findall(pattern, plan_lower)` for one benzo drug name. -/
def benzoFindall (drug : List Char) (s : List Char) : List (List Char) :=
  benzoFindAux drug (s.length + 1) s

/-- Digit run to a natural number. -/
def digitsToNat (l : List Char) : Nat :=
  l.foldl (fun a c => 10 * a + (c.toNat - 48)) 0

/-- `float(dose_str)` for the captured dose (`\d+` or `\d+.\d+`), as an
exact decimal: numerator and power-of-ten denominator. -/
def parseDose (l : List Char) : Nat × Nat :=
  let intPart := digitsToNat (l.takeWhile isDigitC)
  match l.dropWhile isDigitC with
  | '.' :: frac =>
      (intPart * 10 ^ frac.length + digitsToNat frac, 10 ^ frac.length)
  | _ => (intPart, 1)

/-- The frequency multiplier inferred from the whole lowered plan:
`tid` ⇒ ×3, else `qid` ⇒ ×4, else `bid` ⇒ ×2, else ×1. -/
def freqMultiplier (plan_lower : List Char) : Nat :=
  if containsL "tid".data plan_lower then 3
  else if containsL "qid".data plan_lower then 4
  else if containsL "bid".data plan_lower then 2
  else 1

/-- `benzo_patterns`: drug pattern, per-drug daily ceiling (mg), display
name. -/
def benzo_patterns : List (String × Nat × String) :=
  [("clonazepam", 2, "clonazepam"),
   ("klonopin", 2, "klonopin (clonazepam)"),
   ("lorazepam", 4, "lorazepam"),
   ("ativan", 4, "ativan (lorazepam)"),
   ("alprazolam", 4, "alprazolam"),
   ("xanax", 4, "xanax (alprazolam)")]

/-- Decimal rendering of `num / den` (with `den` a power of ten), standing in
for the Python rendering `str(float)`. -/
def renderDecimal (num den : Nat) : String :=
  if den = 1 then toString num ++ ".0"
  else
    let k := (toString den).length - 1
    let fs := toString (num % den)
    let padded : List Char := List.replicate (k - fs.length) '0' ++ fs.data
    let trimmed : List Char := (padded.reverse.dropWhile (fun c => c = '0')).reverse
    toString (num / den) ++ "." ++
      (if trimmed = [] then "0" else String.mk trimmed)

/-- High-dose benzodiazepine warning (`total` given as an exact decimal
`totalNum / totalDen`; the source renders the Python float). -/
def highDoseWarning (medName : String) (totalNum totalDen maxDose : Nat) : String :=
  "⚠️  HIGH-DOSE BENZODIAZEPINE: " ++ medName ++ " " ++
  renderDecimal totalNum totalDen ++
  "mg/day exceeds typical maximum of " ++ renderDecimal maxDose 1 ++
  "mg/day. High doses require clear justification and should be approached " ++
  "cautiously due to dependence risk."

/-- The benzodiazepine dose-ceiling warnings for one drug pattern.
`total_daily > max_dose` on floats is the exact comparison
`doseNum * mult > maxDose * doseDen`. -/
def benzoWarningsFor (plan_lower : List Char) (drug : String) (maxDose : Nat)
    (medName : String) : List String :=
  (benzoFindall drug.data plan_lower).filterMap (fun dstr =>
    let dose := parseDose dstr
    let mult := freqMultiplier plan_lower
    if maxDose * dose.2 < dose.1 * mult then
      some (highDoseWarning medName (dose.1 * mult) dose.2 maxDose)
    else none)

/-- `OllamaSOAPGenerator._validate_clinical_logic`: vital signs in the
subjective section, pain medication without documented pain, medications
despite no significant findings, contradictory TID/PRN frequency, and the
benzodiazepine dose ceilings — in the source's order. -/
def validate_clinical_logic (note : SOAPNote) : List String :=
  let subjective_lower := lowerL note.subjective.data
  let plan_lower := lowerL note.plan.data
  let objective_lower := lowerL note.objective.data
  let vitalW := if vitalSearch subjective_lower then [vitalStructureWarning] else []
  let has_pain_med := pain_meds.any (fun m => containsL m.data plan_lower)
  let has_pain_documented :=
    pain_keywords.any (fun k => containsL k.data subjective_lower) ||
    pain_keywords.any (fun k => containsL k.data objective_lower)
  let painW := if has_pain_med && !has_pain_documented then [painMedicationWarning] else []
  let sigW :=
    if containsL "no significant findings".data objective_lower then
      match findMedsSection plan_lower with
      | some meds =>
          if !(meds = []) &&
             !(exclude_terms.any (fun t => containsL t.data meds)) &&
             decide (10 < (stripL meds).length) then
            [noFindingsMedicationWarning]
          else []
      | none => []
    else []
  let tidW := tidPrnWarnings plan_lower
  let benzoW := (benzo_patterns.map (fun p =>
    benzoWarningsFor plan_lower p.1 p.2.1 p.2.2)).flatten
  vitalW ++ painW ++ sigW ++ tidW ++ benzoW

/-! ## Note extractor
(`src/core/soap_generator.py`, `_parse_soap_response` /
`_clean_section_content`)

The four section patterns
`(?:\*\*)?HDR:(?:\*\*)?[\s\n]+(.*?)(?=STOP)` (`re.IGNORECASE | re.DOTALL`)
are embedded as deterministic matchers.  Greedy/lazy analysis: the
`[\s\n]+` run is maximal (no stop alternative begins with whitespace, and
`$` at the end of the run is covered by the empty-capture case); the lazy
capture ends at the first position where a stop alternative (or the end of
the text, `$`) matches; `re.finditer` resumes at the match end, which is the
zero-width stop position. -/

/-- The lookahead of the subjective/objective/assessment patterns:
`(?:\*\*)?NEXT:(?:\*\*)?|---[\s\n]+(?:\*\*)?NEXT|$` for the following
section's keyword `NEXT` (the trailing optional `**` of the first
alternative always succeeds and is dropped). -/
def headerStop (next : List Char) (s : List Char) : Bool :=
  s.isEmpty ||
  startsWithCIL (next ++ [':']) s ||
  (startsWithL "**".data s && startsWithCIL (next ++ [':']) (s.drop 2)) ||
  (startsWithL "---".data s &&
    (let r := s.drop 3
     !(r.takeWhile isPySpace = []) &&
     (let r2 := r.dropWhile isPySpace
      startsWithCIL next r2 ||
      (startsWithL "**".data r2 && startsWithCIL next (r2.drop 2)))))

/-- The lookahead of the plan pattern:
`---|End of SOAP Note|VALIDATION WARNINGS|$`. -/
def planStop (s : List Char) : Bool :=
  s.isEmpty ||
  startsWithL "---".data s ||
  startsWithCIL "End of SOAP Note".data s ||
  startsWithCIL "VALIDATION WARNINGS".data s

/-- One match attempt of a section pattern at the head of `s`: optional
`**`, the header (case-insensitive), optional `**`, at least one whitespace
character (maximal run), then the lazy capture up to the first stop
position.  Returns the capture and the suffix at the stop (the match end). -/
def sectionMatchAt (hdr : List Char) (stop : List Char → Bool) (s : List Char) :
    Option (List Char × List Char) :=
  let afterHdr : Option (List Char) :=
    if startsWithL "**".data s && startsWithCIL hdr (s.drop 2) then
      some (s.drop (2 + hdr.length))
    else if startsWithCIL hdr s then some (s.drop hdr.length)
    else none
  match afterHdr with
  | none => none
  | some r1 =>
      let r2 := if startsWithL "**".data r1 then r1.drop 2 else r1
      if (r2.takeWhile isPySpace) = [] then none
      else some (captureUntilStop stop (r2.dropWhile isPySpace))

/-- `re.finditer` for a section pattern: left-to-right, non-overlapping;
`fuel` bounds the scan steps. -/
def sectionFindAux (hdr : List Char) (stop : List Char → Bool) :
    Nat → List Char → List (List Char)
  | 0, _ => []
  | _ + 1, [] => []
  | fuel + 1, c :: cs =>
      match sectionMatchAt hdr stop (c :: cs) with
      | some (cap, rest) => cap :: sectionFindAux hdr stop fuel rest
      | none => sectionFindAux hdr stop fuel cs

/-- All matches of a section pattern over the response. -/
def sectionFindall (hdr : List Char) (stop : List Char → Bool)
    (s : List Char) : List (List Char) :=
  sectionFindAux hdr stop (s.length + 1) s

/-! ### `_clean_section_content` -/

/-- `re.sub(r'^---\s*', '', content, flags=re.MULTILINE)`: at each line
start, remove a literal `---` and the (maximal, possibly multi-line)
whitespace run after it; scanning resumes at the match end, which is again a
line start exactly when the last removed character was a newline. -/
def subDashLinesAux : Nat → Bool → List Char → List Char
  | 0, _, s => s
  | _ + 1, _, [] => []
  | fuel + 1, atStart, c :: cs =>
      if atStart && startsWithL "---".data (c :: cs) then
        let r := (c :: cs).drop 3
        let ws := r.takeWhile isPySpace
        subDashLinesAux fuel (!(ws = []) && ws.getLast? = some '\n')
          (r.dropWhile isPySpace)
      else c :: subDashLinesAux fuel (c = '\n') cs

/-- `re.sub(r'^#+\s*', '', content, flags=re.MULTILINE)`. -/
def subHashLinesAux : Nat → Bool → List Char → List Char
  | 0, _, s => s
  | _ + 1, _, [] => []
  | fuel + 1, atStart, c :: cs =>
      if atStart && c = '#' then
        let r := (c :: cs).dropWhile (fun x => x = '#')
        let ws := r.takeWhile isPySpace
        subHashLinesAux fuel (!(ws = []) && ws.getLast? = some '\n')
          (r.dropWhile isPySpace)
      else c :: subHashLinesAux fuel (c = '\n') cs

/-- The bare section-label alternation
`(SUBJECTIVE|OBJECTIVE|ASSESSMENT|PLAN|S|O|A|P):` (case-insensitive, tried
in the source order): the number of characters matched. -/
def labelAt (s : List Char) : Option Nat :=
  if startsWithCIL "SUBJECTIVE:".data s then some 11
  else if startsWithCIL "OBJECTIVE:".data s then some 10
  else if startsWithCIL "ASSESSMENT:".data s then some 11
  else if startsWithCIL "PLAN:".data s then some 5
  else if startsWithCIL "S:".data s then some 2
  else if startsWithCIL "O:".data s then some 2
  else if startsWithCIL "A:".data s then some 2
  else if startsWithCIL "P:".data s then some 2
  else none

/-- `re.sub(r'^(SUBJECTIVE|OBJECTIVE|ASSESSMENT|PLAN|S|O|A|P):\s*$', '',
flags=re.IGNORECASE | re.MULTILINE)`: a bare label line is removed together
with the whitespace up to (without `re.MULTILINE` on `$`: excluding) the
last newline of the run, or entirely when the run reaches the end of the
text; with interior whitespace and no newline the pattern does not match. -/
def subLabelLinesAux : Nat → Bool → List Char → List Char
  | 0, _, s => s
  | _ + 1, _, [] => []
  | fuel + 1, atStart, c :: cs =>
      match (if atStart then labelAt (c :: cs) else none) with
      | some n =>
          let r := (c :: cs).drop n
          let ws := r.takeWhile isPySpace
          let after := r.dropWhile isPySpace
          if after.isEmpty then []
          else if ws.contains '\n' then
            let b := (ws.reverse.takeWhile (fun x => !(x = '\n'))).reverse
            let a := ws.take (ws.length - (b.length + 1))
            subLabelLinesAux fuel (a.getLast? = some '\n')
              ('\n' :: (b ++ after))
          else c :: subLabelLinesAux fuel false cs
      | none => c :: subLabelLinesAux fuel (c = '\n') cs

/-- `re.sub(r'^---+$', '', flags=re.MULTILINE)`: a line consisting of three
or more dashes only. -/
def subDashOnlyLinesAux : Nat → Bool → List Char → List Char
  | 0, _, s => s
  | _ + 1, _, [] => []
  | fuel + 1, atStart, c :: cs =>
      if atStart && c = '-' then
        let run := (c :: cs).takeWhile (fun x => x = '-')
        let rest := (c :: cs).dropWhile (fun x => x = '-')
        if 3 ≤ run.length && (rest.isEmpty || rest.head? = some '\n') then
          subDashOnlyLinesAux fuel false rest
        else c :: subDashOnlyLinesAux fuel false cs
      else c :: subDashOnlyLinesAux fuel (c = '\n') cs

/-- `re.sub(r'\n{3,}', '\n\n', content)`. -/
def collapseNewlinesAux : Nat → List Char → List Char
  | 0, s => s
  | _ + 1, [] => []
  | fuel + 1, c :: cs =>
      if c = '\n' then
        let run := (c :: cs).takeWhile (fun x => x = '\n')
        let rest := (c :: cs).dropWhile (fun x => x = '\n')
        if 3 ≤ run.length then '\n' :: '\n' :: collapseNewlinesAux fuel rest
        else run ++ collapseNewlinesAux fuel rest
      else c :: collapseNewlinesAux fuel cs

/-- `OllamaSOAPGenerator._clean_section_content`: strip, remove leading
dashes / `Note**` artifacts, remove `---` line starts, markdown heading
markers, collapse triple newlines, remove bare section-label lines and
dash-only lines, collapse and strip again. -/
def cleanContent (content : List Char) : List Char :=
  let c1 := stripL content
  let c2 := if c1.head? = some '-' then
      ((c1.dropWhile (fun x => x = '-')).dropWhile isPySpace) else c1
  let c3 := if startsWithL "Note**".data c2 then
      ((c2.drop 6).dropWhile isPySpace) else c2
  let c4 := subDashLinesAux (c3.length + 1) true c3
  let c5 := subHashLinesAux (c4.length + 1) true c4
  let c6 := collapseNewlinesAux (c5.length + 1) c5
  let c7 := subLabelLinesAux (c6.length + 1) true c6
  let c8 := subDashOnlyLinesAux (c7.length + 1) true c7
  let c9 := collapseNewlinesAux (c8.length + 1) c8
  stripL c9

/-- Case-insensitive substring test (ASCII folding), used to state which
texts a section body must avoid for the round-trip property. -/
def containsCIL (p : List Char) : List Char → Bool
  | [] => startsWithCIL p []
  | c :: cs => startsWithCIL p (c :: cs) || containsCIL p cs

/-- The fixed sentinel for unusable or missing sections. -/
def sentinel : String := "Not documented in this encounter"

/-- The filter of `_parse_soap_response`:
`len(cleaned) > 5 and cleaned not in ['---', 'Note**']`. -/
def goodContent (cleaned : List Char) : Bool :=
  decide (5 < cleaned.length) && !(cleaned = "---".data) && !(cleaned = "Note**".data)

/-- A body string suitable for the extractor round-trip: non-empty, not
starting with whitespace, free (case-insensitively) of the four section
headers, free of the `---` separator, and with usable content (longer than
5 characters, not a separator artifact). -/
def sectionBody (b : List Char) : Bool :=
  (match b.head? with | some c => !isPySpace c | none => false) &&
  !(containsCIL "SUBJECTIVE:".data b) &&
  !(containsCIL "OBJECTIVE:".data b) &&
  !(containsCIL "ASSESSMENT:".data b) &&
  !(containsCIL "PLAN:".data b) &&
  !(containsL "---".data b) &&
  goodContent b

/-- Select the first candidate whose cleaned content is usable, falling back
to the sentinel (`match.group(1).strip()` followed by
`_clean_section_content` is `cleanContent`, whose first step is the strip). -/
def pickSection (candidates : List (List Char)) : String :=
  match (candidates.map cleanContent).find? goodContent with
  | some c => ⟨c⟩
  | none => sentinel

/-- `OllamaSOAPGenerator._parse_soap_response` (the `total_content < 50`
check of the source only logs and is behaviourally inert). -/
def parse_soap_response (response : String) : SOAPNote :=
  { subjective := pickSection
      (sectionFindall "SUBJECTIVE:".data (headerStop "OBJECTIVE".data) response.data)
    objective := pickSection
      (sectionFindall "OBJECTIVE:".data (headerStop "ASSESSMENT".data) response.data)
    assessment := pickSection
      (sectionFindall "ASSESSMENT:".data (headerStop "PLAN".data) response.data)
    plan := pickSection
      (sectionFindall "PLAN:".data planStop response.data) }

/-- Canonical well-formed LLM response: the four canonical headers, each on
its own line, each followed by its body. -/
def roundTripText (s o a p : List Char) : List Char :=
  "SUBJECTIVE:\n".data ++ (s ++ ("\nOBJECTIVE:\n".data ++ (o ++
    ("\nASSESSMENT:\n".data ++ (a ++ ("\nPLAN:\n".data ++ p))))))

/-- The canonical response from the objective header on. -/
def rtRestS (o a p : List Char) : List Char :=
  "OBJECTIVE:\n".data ++ (o ++ ("\nASSESSMENT:\n".data ++ (a ++ ("\nPLAN:\n".data ++ p))))

/-- The canonical response from the assessment header on. -/
def rtRestO (a p : List Char) : List Char :=
  "ASSESSMENT:\n".data ++ (a ++ ("\nPLAN:\n".data ++ p))

/-- The canonical response from the plan header on. -/
def rtRestA (p : List Char) : List Char := "PLAN:\n".data ++ p

/-! ## `OllamaSOAPGenerator.generate` / `agenerate`
(`src/core/soap_generator.py`) -/

/-- Exceptions as distinguished by the two `except` clauses of `generate`:
a `SOAPGenerationError` is re-raised unchanged, any other exception is
wrapped into a fresh `SOAPGenerationError` carrying its `str(e)` rendering
as reason. -/
inductive GenExc
  | soapGenError (message : String)
  | other (text : String)
  deriving DecidableEq, Repr

/-- `SOAPGenerationError(reason=...)` renders its message as
`"Failed to generate SOAP note: " + reason` (`src/exceptions.py`). -/
def soapErrorMessage (reason : String) : String :=
  "Failed to generate SOAP note: " ++ reason

/-- The `"="*70` separator line of the appended warning block. -/
def eqLine70 : String := String.mk (List.replicate 70 '=')

/-- The formatted `warning_text` block that `generate` appends to the plan
section when validation produced warnings. -/
def warningText (all_warnings : List String) : String :=
  "\n\n" ++ eqLine70 ++ "\n" ++ "VALIDATION WARNINGS\n" ++ eqLine70 ++ "\n" ++
    String.intercalate "\n" all_warnings ++ "\n" ++ eqLine70

/-- `OllamaSOAPGenerator.generate`, with the LLM chain as the collaborator
`llm` and the number of LLM invocations as second component: the
empty-transcription guard, the chain call, `_parse_soap_response`, the two
validators, and the warning block appended to the plan when any warning was
produced. -/
def generate (llm : String → String → Except GenExc String)
    (transcription language : String) : Except GenExc SOAPNote × Nat :=
  if transcription.data.isEmpty || (stripL transcription.data).isEmpty then
    (.error (.soapGenError (soapErrorMessage "Empty transcription provided")), 0)
  else
    match llm transcription language with
    | .error (.soapGenError m) => (.error (.soapGenError m), 1)
    | .error (.other t) => (.error (.soapGenError (soapErrorMessage t)), 1)
    | .ok raw =>
        let note := parse_soap_response raw
        let all_warnings :=
          validate_clinical_safety note ++ validate_clinical_logic note
        if all_warnings.isEmpty then (.ok note, 1)
        else (.ok { note with plan := note.plan ++ warningText all_warnings }, 1)

/-- `OllamaSOAPGenerator.agenerate`: the async body repeats `generate`
line for line, with `ainvoke` in place of `invoke`; its embedding is the
same function of the collaborator. -/
def agenerate (llm : String → String → Except GenExc String)
    (transcription language : String) : Except GenExc SOAPNote × Nat :=
  generate llm transcription language

/-- A fixed LLM response whose plan section triggers exactly the high-dose
benzodiazepine validation path ("Clonazepam 1mg TID" gives 3mg/day against
the 2mg/day ceiling). -/
def sampleBenzoResponse : String :=
  "SUBJECTIVE:\nFever and chills.\nOBJECTIVE:\nVitals stable.\nASSESSMENT:\nLikely viral.\nPLAN:\nClonazepam 1mg TID nightly."

/-- The parsed note of the fixed benzodiazepine response. -/
def sampleBenzoParsed : SOAPNote := parse_soap_response sampleBenzoResponse

/-- The validation warnings of the fixed benzodiazepine response. -/
def sampleBenzoWarnings : List String :=
  validate_clinical_safety sampleBenzoParsed ++ validate_clinical_logic sampleBenzoParsed

/-- Decidable equality on `Except`, for evaluating concrete runs. -/
instance {e a : Type} [DecidableEq e] [DecidableEq a] : DecidableEq (Except e a) :=
  fun x y =>
    match x, y with
    | .ok v, .ok w =>
        if h : v = w then isTrue (by rw [h]) else isFalse (by simp [h])
    | .error v, .error w =>
        if h : v = w then isTrue (by rw [h]) else isFalse (by simp [h])
    | .ok _, .error _ => isFalse (by simp)
    | .error _, .ok _ => isFalse (by simp)

end MedScribe

/-! Claim theorems start after all definitions; placeholder section marker. -/

namespace MedScribe

/-! ### Basic lemmas about the string primitives -/

/-- `startsWithL` characterized by list splitting. -/
lemma startsWithL_iff (p : List Char) :
    ∀ s, startsWithL p s = true ↔ ∃ r, s = p ++ r := by
  induction p with
  | nil =>
      intro s
      simp [startsWithL]
  | cons a ps ih =>
      intro s
      cases s with
      | nil =>
          simp [startsWithL]
      | cons c cs =>
          simp only [startsWithL, Bool.and_eq_true, decide_eq_true_eq, ih cs,
            List.cons_append, List.cons.injEq]
          constructor
          · rintro ⟨h1, r, h2⟩
            exact ⟨r, h1.symm, h2⟩
          · rintro ⟨r, h1, h2⟩
            exact ⟨h1.symm, r, h2⟩

/-- `containsL` characterized by list splitting. -/
lemma containsL_iff (p : List Char) :
    ∀ s, containsL p s = true ↔ ∃ l r, s = l ++ p ++ r := by
  intro s
  induction s with
  | nil =>
      simp only [containsL, startsWithL_iff]
      constructor
      · rintro ⟨r, h⟩
        exact ⟨[], r, by simpa using h⟩
      · rintro ⟨l, r, h⟩
        have hl : l = [] := by
          cases l with
          | nil => rfl
          | cons x xs => simp at h
        subst hl
        exact ⟨r, by simpa using h⟩
  | cons c cs ih =>
      simp only [containsL, Bool.or_eq_true, startsWithL_iff, ih]
      constructor
      · rintro (⟨r, h⟩ | ⟨l, r, h⟩)
        · exact ⟨[], r, by simpa using h⟩
        · exact ⟨c :: l, r, by simp [h]⟩
      · rintro ⟨l, r, h⟩
        cases l with
        | nil =>
            exact Or.inl ⟨r, by simpa using h⟩
        | cons x xs =>
            simp only [List.cons_append, List.cons.injEq] at h
            exact Or.inr ⟨xs, r, h.2⟩

/-- Substring containment is transitive. -/
lemma containsL_trans {p q s : List Char} (h1 : containsL p q = true)
    (h2 : containsL q s = true) : containsL p s = true := by
  rw [containsL_iff] at h1 h2 ⊢
  obtain ⟨l1, r1, h1⟩ := h1
  obtain ⟨l2, r2, h2⟩ := h2
  exact ⟨l2 ++ l1, r1 ++ r2, by simp [h2, h1]⟩

/-- `map` preserves substring containment. -/
lemma containsL_map {p s : List Char} (f : Char → Char)
    (h : containsL p s = true) :
    containsL (p.map f) (s.map f) = true := by
  rw [containsL_iff] at h ⊢
  obtain ⟨l, r, h⟩ := h
  exact ⟨l.map f, r.map f, by simp [h]⟩

/-- A pattern occurring in a list occurs in any extension on the right. -/
lemma containsL_append_right {p l : List Char} (r : List Char)
    (h : containsL p l = true) : containsL p (l ++ r) = true := by
  rw [containsL_iff] at h ⊢
  obtain ⟨a, b, h⟩ := h
  exact ⟨a, b ++ r, by simp [h]⟩

/-- C5: for every `p ≤ 100`, `transcription_progress p = p*50/100 ∈ [0,50]`,
`generation_progress p = 50 + p*50/100 ∈ [50,100]`, both are monotonically
non-decreasing, and `transcription_progress 100 = generation_progress 0 = 50`. -/
theorem progress_helper_bounds_monotone_boundary :
    (∀ p : Nat, p ≤ 100 →
      ProgressHelper.transcription_progress p = p * 50 / 100 ∧
      ProgressHelper.transcription_progress p ≤ 50 ∧
      50 ≤ ProgressHelper.generation_progress p ∧
      ProgressHelper.generation_progress p ≤ 100) ∧
    (∀ p q : Nat, p ≤ q →
      ProgressHelper.transcription_progress p ≤ ProgressHelper.transcription_progress q ∧
      ProgressHelper.generation_progress p ≤ ProgressHelper.generation_progress q) ∧
    ProgressHelper.transcription_progress 100 = 50 ∧
    ProgressHelper.generation_progress 0 = 50 := by
  refine ⟨?_, ?_, by decide, by decide⟩
  · intro p hp
    refine ⟨rfl, ?_, ?_, ?_⟩
    · show p * 50 / 100 ≤ 50
      calc p * 50 / 100 ≤ 100 * 50 / 100 :=
            Nat.div_le_div_right (Nat.mul_le_mul_right 50 hp)
        _ = 50 := by decide
    · exact Nat.le_add_right 50 _
    · show 50 + p * 50 / 100 ≤ 100
      have h : p * 50 / 100 ≤ 50 := by
        calc p * 50 / 100 ≤ 100 * 50 / 100 :=
              Nat.div_le_div_right (Nat.mul_le_mul_right 50 hp)
          _ = 50 := by decide
      omega
  · intro p q hpq
    constructor
    · exact Nat.div_le_div_right (Nat.mul_le_mul_right 50 hpq)
    · exact Nat.add_le_add_left (Nat.div_le_div_right (Nat.mul_le_mul_right 50 hpq)) 50

/-- Witness for C5 at `p = 100`, `q = 100`. -/
theorem progress_helper_bounds_monotone_boundary_witness :
    ProgressHelper.transcription_progress 100 = 100 * 50 / 100 ∧
    ProgressHelper.generation_progress 100 ≤ 100 := by
  have h := progress_helper_bounds_monotone_boundary
  exact ⟨(h.1 100 (by decide)).1, (h.1 100 (by decide)).2.2.2⟩

/-- A `ProcessingResult` satisfies the terminal contract of claim C1:
status is `completed` or `failed`; `completed` carries a SOAP note, the
completion timestamp and the elapsed duration; `failed` carries an error
message and the completion timestamp. -/
def TerminalContract (r : ProcessingResult) (now₁ now₂ : Nat) : Prop :=
  (r.status = .completed ∨ r.status = .failed) ∧
  (r.status = .completed →
    r.soap_note.isSome ∧ r.completed_at = some now₂ ∧
    r.processing_time_seconds = some (now₂ - now₁)) ∧
  (r.status = .failed →
    r.error_message.isSome ∧ r.completed_at = some now₂)

/-- C1: for every audio path, every progress callback (including none, or one
that raises — the callback's outcome is never inspected), and every
collaborator behaviour (returning normally or raising any exception),
`process` and `aprocess` return a `ProcessingResult` (they are total
functions: no exception escapes) whose status is `completed` or `failed`;
`completed` carries a SOAP note, a completion timestamp and the elapsed
duration, `failed` an error message and a completion timestamp. -/
theorem process_always_reaches_terminal_state :
    ∀ (transcribe : String → Except PyError TranscriptionResult)
      (generate : String → String → Except PyError SOAPNote)
      (cb : Option Callback) (jobId audio : String) (now₁ now₂ : Nat),
      TerminalContract (process transcribe generate cb jobId audio now₁ now₂).1 now₁ now₂ ∧
      TerminalContract (aprocess transcribe generate cb jobId audio now₁ now₂).1 now₁ now₂ := by
  intro tr gen cb jobId audio n₁ n₂
  constructor <;>
  · simp only [process, aprocess]
    cases htr : tr audio with
    | error e =>
        simp [runTranscription, htr, markFailed, TerminalContract]
    | ok t =>
        cases hgen : gen t.text (detectedLanguage t) with
        | error e =>
            simp [runTranscription, htr, runSoapGeneration, hgen, markFailed,
                  TerminalContract]
        | ok note =>
            simp [runTranscription, htr, runSoapGeneration, hgen,
                  TerminalContract]

/-- Witness for C1: a run whose transcriber raises a classified error ends
`failed` with an error message and completion timestamp, and a run with both
collaborators succeeding ends `completed` with a note. -/
theorem process_always_reaches_terminal_state_witness :
    ((process (fun _ => .error (.medscribe "Audio file not found: a.mp3"))
        (fun _ _ => .ok ⟨"s", "o", "a", "p"⟩) none "j1" "a.mp3" 3 10).1.error_message).isSome ∧
    ((process (fun _ => .ok ⟨"hello doctor", "en", 5⟩)
        (fun _ _ => .ok ⟨"s", "o", "a", "p"⟩) none "j2" "b.mp3" 3 10).1.soap_note).isSome := by
  refine ⟨?_, ?_⟩
  · exact ((process_always_reaches_terminal_state
        (fun _ => .error (.medscribe "Audio file not found: a.mp3"))
        (fun _ _ => .ok ⟨"s", "o", "a", "p"⟩) none "j1" "a.mp3" 3 10).1.2.2 rfl).1
  · exact ((process_always_reaches_terminal_state
        (fun _ => .ok ⟨"hello doctor", "en", 5⟩)
        (fun _ _ => .ok ⟨"s", "o", "a", "p"⟩) none "j2" "b.mp3" 3 10).1.2.1 rfl).1

/-- The callback invocations of one fully successful concrete run of
`process` (both collaborators succeed, a callback is supplied). -/
def sampleSuccessfulRunEvents : List ProgressEvent :=
  (process (fun _ => .ok ⟨"hello doctor", "en", 5⟩)
    (fun _ _ => .ok ⟨"s", "o", "a", "p"⟩)
    (some (fun _ _ _ => .ok ())) "j" "a.mp3" 0 7).2

/-- C4 counterexample: in a run of `process` in which both collaborators
succeed, the generation stage invokes the progress callback **four** times
(local 0%, 30%, 60%, 100%), not three as claimed; the transcription stage
does invoke it three times. -/
theorem generation_stage_has_four_checkpoints_counterexample :
    ((sampleSuccessfulRunEvents.filter (fun e => e.status = .generating)).length = 4 ∧
     ¬ ((sampleSuccessfulRunEvents.filter (fun e => e.status = .generating)).length = 3)) ∧
    (sampleSuccessfulRunEvents.filter (fun e => e.status = .transcribing)).length = 3 := by
  refine ⟨⟨rfl, by decide⟩, rfl⟩

/-- C4 amended: in every run of `process` (and `aprocess`) with a callback
supplied in which both collaborators succeed, the transcription stage invokes
the progress callback exactly three times, at 0%, 50% and 100% of its local
range (overall 0, 25, 50), and the generation stage invokes it exactly four
times, at 0%, 30%, 60% and 100% of its local range (overall 50, 65, 80, 100). -/
theorem stage_checkpoints_exact :
    ∀ (transcribe : String → Except PyError TranscriptionResult)
      (generate : String → String → Except PyError SOAPNote)
      (f : Callback) (jobId audio : String) (now₁ now₂ : Nat)
      (t : TranscriptionResult) (note : SOAPNote),
      transcribe audio = .ok t →
      generate t.text (detectedLanguage t) = .ok note →
      (((process transcribe generate (some f) jobId audio now₁ now₂).2.filter
          (fun e => e.status = .transcribing)).map (fun e => e.progress) = [0, 25, 50] ∧
       ((process transcribe generate (some f) jobId audio now₁ now₂).2.filter
          (fun e => e.status = .generating)).map (fun e => e.progress) = [50, 65, 80, 100]) ∧
      (((aprocess transcribe generate (some f) jobId audio now₁ now₂).2.filter
          (fun e => e.status = .transcribing)).map (fun e => e.progress) = [0, 25, 50] ∧
       ((aprocess transcribe generate (some f) jobId audio now₁ now₂).2.filter
          (fun e => e.status = .generating)).map (fun e => e.progress) = [50, 65, 80, 100]) := by
  intro tr gen f jobId audio n₁ n₂ t note htr hgen
  constructor <;>
  · simp only [process, aprocess]
    simp [runTranscription, htr, runSoapGeneration, hgen, notifyProgress,
          ProgressHelper.transcription_progress, ProgressHelper.generation_progress,
          ProgressHelper.TRANSCRIPTION_WEIGHT, ProgressHelper.GENERATION_WEIGHT]

/-- `getJob` immediately after `putJob` sees the new record. -/
lemma getJob_putJob_self (σ : JobStore) (jobId : String) (r : JobRecord) :
    getJob (putJob σ jobId r) jobId = some r := by
  simp [getJob, putJob]

/-- Any run of the three setters preserves membership of the tracked job's
status in `storeStatuses`. -/
lemma runJobOps_status_invariant (jobId : String) :
    ∀ (ops : List (JobOp × Nat)) (σ σf : JobStore),
      runJobOps σ jobId ops = .ok σf →
      (∀ r, getJob σ jobId = some r → r.status ∈ storeStatuses) →
      ∀ r, getJob σf jobId = some r → r.status ∈ storeStatuses := by
  intro ops
  induction ops with
  | nil =>
      intro σ σf h hinv
      simp only [runJobOps] at h
      cases h
      exact hinv
  | cons head rest ih =>
      obtain ⟨op, now⟩ := head
      intro σ σf h hinv
      simp only [runJobOps] at h
      cases hop : applyJobOp σ jobId now op with
      | error e => rw [hop] at h; cases h
      | ok σ' =>
          rw [hop] at h
          refine ih σ' σf h ?_
          intro r hr
          cases op with
          | progress p stage =>
              simp only [applyJobOp, set_job_progress, update_job] at hop
              cases hg : getJob σ jobId with
              | none => rw [hg] at hop; cases hop
              | some j =>
                  rw [hg] at hop
                  cases hop
                  rw [getJob_putJob_self] at hr
                  cases hr
                  simp [applyUpdates, storeStatuses]
          | complete res =>
              simp only [applyJobOp, set_job_completed, update_job] at hop
              cases hg : getJob σ jobId with
              | none => rw [hg] at hop; cases hop
              | some j =>
                  rw [hg] at hop
                  cases hop
                  rw [getJob_putJob_self] at hr
                  cases hr
                  simp [applyUpdates, storeStatuses]
          | fail err =>
              simp only [applyJobOp, set_job_failed, update_job] at hop
              cases hg : getJob σ jobId with
              | none => rw [hg] at hop; cases hop
              | some j =>
                  rw [hg] at hop
                  cases hop
                  rw [getJob_putJob_self] at hr
                  cases hr
                  simp [applyUpdates, storeStatuses]

/-- C3 counterexample: `create_job` then `set_job_progress(id, 40,
"transcribing")` stores status `"processing"`, which is not a member of the
claimed five-value enum `{pending, transcribing, generating, completed,
failed}` and is not the stage string either. -/
theorem set_job_progress_breaks_five_value_enum_counterexample :
    ((set_job_progress (create_job [] "job1" "process" 0) "job1" 40
        "transcribing" 1).toOption.bind (fun σ => getJob σ "job1")).map
      JobRecord.status = some "processing" ∧
    "processing" ∉ fiveValueStatuses ∧ "processing" ≠ "transcribing" := by
  refine ⟨rfl, by decide, by decide⟩

/-- C3 amended: every job record reachable through `create_job` followed by
any sequence of `set_job_progress` / `set_job_completed` / `set_job_failed`
has a status in the four-value set `{pending, processing, completed,
failed}`; `set_job_progress(id, percent, stage)` always stores the literal
status `"processing"` and records the in-flight stage in `current_stage`,
not in `status`. -/
theorem job_store_status_invariant :
    (∀ (σ₀ : JobStore) (jobId jobType : String) (now₀ : Nat)
       (ops : List (JobOp × Nat)) (σf : JobStore),
       runJobOps (create_job σ₀ jobId jobType now₀) jobId ops = .ok σf →
       ∀ r, getJob σf jobId = some r → r.status ∈ storeStatuses) ∧
    (∀ (σ : JobStore) (jobId : String) (p : Int) (stage : String) (now : Nat)
       (σ' : JobStore),
       set_job_progress σ jobId p stage now = .ok σ' →
       (getJob σ' jobId).map JobRecord.status = some "processing" ∧
       (getJob σ' jobId).map JobRecord.current_stage = some (some stage)) := by
  constructor
  · intro σ₀ jobId jobType now₀ ops σf h
    refine runJobOps_status_invariant jobId ops _ σf h ?_
    intro r hr
    rw [create_job, getJob_putJob_self] at hr
    cases hr
    simp [storeStatuses]
  · intro σ jobId p stage now σ' h
    simp only [set_job_progress, update_job] at h
    cases hg : getJob σ jobId with
    | none => rw [hg] at h; cases h
    | some j =>
        rw [hg] at h
        cases h
        rw [getJob_putJob_self]
        simp [applyUpdates]

/-- Witness for C3 (amended): a concrete `create_job` + `set_job_progress`
run, exercising the second conjunct. -/
theorem job_store_status_invariant_witness :
    (getJob [("j", ⟨"j", "p", "processing", 40, some "transcribing", none, none, 0, 1⟩),
             ("j", ⟨"j", "p", "pending", 0, none, none, none, 0, 0⟩)] "j").map
      JobRecord.status = some "processing" := by
  have h := job_store_status_invariant.2 (create_job [] "j" "p" 0) "j" 40
      "transcribing" 1
      [("j", ⟨"j", "p", "processing", 40, some "transcribing", none, none, 0, 1⟩),
       ("j", ⟨"j", "p", "pending", 0, none, none, none, 0, 0⟩)] rfl
  exact h.1

/-- C8: if the assessment contains "domestic violence" (case-insensitively)
and the plan contains "discuss with partner", `_validate_clinical_safety`
returns at least one critical safety warning; and if the assessment contains
none of the fixed violence keywords, the IPV branch is skipped entirely, so
the validator returns exactly the ICD-code warnings — zero violence-related
warnings — regardless of the plan. -/
theorem safety_validator_ipv_checks :
    (∀ note : SOAPNote,
       containsL "domestic violence".data (lowerL note.assessment.data) = true →
       containsL "discuss with partner".data note.plan.data = true →
       ∃ w ∈ validate_clinical_safety note,
         containsS "CRITICAL SAFETY ISSUE" w = true) ∧
    (∀ note : SOAPNote,
       (∀ kw ∈ ipv_keywords, containsS kw (lowerS note.assessment) = false) →
       validate_clinical_safety note = validate_icd10_codes note) := by
  constructor
  · intro note hdv hplan
    have hipv : ipv_keywords.any
        (fun kw => containsS kw (lowerS note.assessment)) = true := by
      rw [List.any_eq_true]
      refine ⟨"domestic violence", by decide, ?_⟩
      exact hdv
    have hwp : containsL "with partner".data (lowerL note.plan.data) = true := by
      have h1 : containsL "discuss with partner".data (lowerL note.plan.data) = true := by
        have := containsL_map lcase hplan
        have heq : List.map lcase "discuss with partner".data =
            "discuss with partner".data := by decide
        rw [heq] at this
        exact this
      exact @containsL_trans "with partner".data "discuss with partner".data
        (lowerL note.plan.data) (by decide) h1
    refine ⟨criticalSafetyWarning "with partner", ?_, by decide⟩
    simp only [validate_clinical_safety]
    rw [if_pos hipv]
    apply List.mem_append_left
    apply List.mem_append_left
    rw [List.mem_filterMap]
    refine ⟨"with partner", by decide, ?_⟩
    have hwp' : containsS "with partner" (lowerS note.plan) = true := hwp
    rw [if_pos hwp']
  · intro note hno
    have hipv : ipv_keywords.any
        (fun kw => containsS kw (lowerS note.assessment)) = false := by
      rw [List.any_eq_false]
      intro kw hkw
      simp [hno kw hkw]
    simp only [validate_clinical_safety]
    rw [if_neg (by simp [hipv])]
    simp

/-- Witness for C8: a note with a domestic-violence assessment and a
partner-inclusive plan yields a critical warning; a note with a
violence-free assessment yields only the ICD warnings. -/
theorem safety_validator_ipv_checks_witness :
    (∃ w ∈ validate_clinical_safety
        ⟨"s", "o", "domestic violence", "discuss with partner"⟩,
       containsS "CRITICAL SAFETY ISSUE" w = true) ∧
    validate_clinical_safety ⟨"s", "o", "stable migraine", "rest and fluids"⟩ =
      validate_icd10_codes ⟨"s", "o", "stable migraine", "rest and fluids"⟩ := by
  constructor
  · exact safety_validator_ipv_checks.1
      ⟨"s", "o", "domestic violence", "discuss with partner"⟩
      (by decide) (by decide)
  · exact safety_validator_ipv_checks.2
      ⟨"s", "o", "stable migraine", "rest and fluids"⟩ (by decide)



/-- The fraction split re-assembles to its input. -/
lemma fracSplit_append (l : List Char) : (fracSplit l).1 ++ (fracSplit l).2 = l := by
  unfold fracSplit
  split
  · split
    · rfl
    · rename_i t _
      simp [List.takeWhile_append_dropWhile]
  · rfl

/-- Characters of the fraction are digits or the decimal point. -/
lemma fracSplit_chars (l : List Char) :
    ∀ c ∈ (fracSplit l).1, isDigitC c = true ∨ c = '.' := by
  unfold fracSplit
  intro c hc
  split at hc
  · split at hc
    · simp at hc
    · simp only [List.mem_cons] at hc
      rcases hc with rfl | hc
      · exact Or.inr rfl
      · exact Or.inl (List.mem_takeWhile_imp hc)
  · simp at hc

/-- Successful `benzoMatchAt` decomposes the text into the matched region
(drug name, whitespace, digits, optional fraction, whitespace, `mg`) and the
remainder. -/
lemma benzoMatchAt_shape {drug s : List Char} {cap rest : List Char}
    (h : benzoMatchAt drug s = some (cap, rest)) :
    ∃ w d fr sp2, s = drug ++ w ++ d ++ fr ++ sp2 ++ "mg".data ++ rest ∧
      w ≠ [] ∧ (∀ c ∈ w, isPySpace c = true) ∧
      d ≠ [] ∧ (∀ c ∈ d, isDigitC c = true) ∧
      (∀ c ∈ fr, isDigitC c = true ∨ c = '.') ∧
      (∀ c ∈ sp2, isPySpace c = true) ∧ cap = d ++ fr := by
  by_cases hsw : startsWithL drug s = true
  case neg => simp [benzoMatchAt, hsw] at h
  obtain ⟨r1, hs⟩ := (startsWithL_iff drug s).mp hsw
  have hdrop : s.drop drug.length = r1 := by rw [hs]; exact List.drop_left _ _
  by_cases hw0 : r1.takeWhile isPySpace = []
  case pos => simp [benzoMatchAt, hsw, hdrop, hw0] at h
  by_cases hd0 : (r1.dropWhile isPySpace).takeWhile isDigitC = []
  case pos => simp [benzoMatchAt, hsw, hdrop, hw0, hd0] at h
  set r2 := r1.dropWhile isPySpace with hr2
  set r3 := r2.dropWhile isDigitC with hr3
  have main : ∀ (fr1 r4 : List Char),
      r3 = fr1 ++ r4 → (∀ c ∈ fr1, isDigitC c = true ∨ c = '.') →
      (if startsWithL "mg".data (r4.dropWhile isPySpace) then
        some ((r2.takeWhile isDigitC ++ fr1, (r4.dropWhile isPySpace).drop 2) :
          List Char × List Char)
       else none) = some (cap, rest) →
      ∃ w d fr sp2, s = drug ++ w ++ d ++ fr ++ sp2 ++ "mg".data ++ rest ∧
        w ≠ [] ∧ (∀ c ∈ w, isPySpace c = true) ∧
        d ≠ [] ∧ (∀ c ∈ d, isDigitC c = true) ∧
        (∀ c ∈ fr, isDigitC c = true ∨ c = '.') ∧
        (∀ c ∈ sp2, isPySpace c = true) ∧ cap = d ++ fr := by
    intro fr1 r4 hsplit hfr1 hif
    by_cases hmg : startsWithL "mg".data (r4.dropWhile isPySpace) = true
    case neg => rw [if_neg (by simpa using hmg)] at hif; cases hif
    rw [if_pos hmg] at hif
    obtain ⟨rest', hr5⟩ := (startsWithL_iff _ _).mp hmg
    have hrest' : (r4.dropWhile isPySpace).drop 2 = rest' := by
      rw [hr5]
      exact List.drop_left ("mg".data) rest'
    injection hif with hif
    injection hif with hcap hrest
    have h4 : r4.dropWhile isPySpace = "mg".data ++ rest := by
      rw [hr5, ← hrest, hrest']
    refine ⟨r1.takeWhile isPySpace, r2.takeWhile isDigitC, fr1,
            r4.takeWhile isPySpace, ?_, hw0, ?_, hd0, ?_, hfr1, ?_, hcap.symm⟩
    · have t1 : r1.takeWhile isPySpace ++ r2 = r1 := by
        rw [hr2]; exact List.takeWhile_append_dropWhile _ _
      have t2 : r2.takeWhile isDigitC ++ r3 = r2 := by
        rw [hr3]; exact List.takeWhile_append_dropWhile _ _
      have t3 : fr1 ++ r4 = r3 := hsplit.symm
      have t4 : r4.takeWhile isPySpace ++ ("mg".data ++ rest) = r4 := by
        rw [← h4]; exact List.takeWhile_append_dropWhile _ _
      have e : s = drug ++ (r1.takeWhile isPySpace ++ (r2.takeWhile isDigitC ++
          (fr1 ++ (r4.takeWhile isPySpace ++ ("mg".data ++ rest))))) := by
        calc s = drug ++ r1 := hs
          _ = drug ++ (r1.takeWhile isPySpace ++ r2) := by rw [t1]
          _ = drug ++ (r1.takeWhile isPySpace ++ (r2.takeWhile isDigitC ++ r3)) := by
              rw [t2]
          _ = drug ++ (r1.takeWhile isPySpace ++ (r2.takeWhile isDigitC ++
                (fr1 ++ r4))) := by rw [t3]
          _ = drug ++ (r1.takeWhile isPySpace ++ (r2.takeWhile isDigitC ++
                (fr1 ++ (r4.takeWhile isPySpace ++ ("mg".data ++ rest))))) := by
              rw [t4]
      simpa [List.append_assoc] using e
    · intro c hc; exact List.mem_takeWhile_imp hc
    · intro c hc; exact List.mem_takeWhile_imp hc
    · intro c hc; exact List.mem_takeWhile_imp hc
  rw [benzoMatchAt] at h
  rw [if_pos hsw, hdrop] at h
  rw [if_neg hw0, if_neg (by rw [← hr2]; exact hd0)] at h
  rw [← hr2, ← hr3] at h
  dsimp only at h
  split at h
  · rename_i hmg
    refine main (fracSplit r3).1 (fracSplit r3).2 (fracSplit_append r3).symm
      (fracSplit_chars r3) ?_
    rw [if_pos hmg]
    exact h
  · cases h



/-- A successful match consumes at least one character beyond the remainder. -/
lemma benzoMatchAt_rest_length {drug s cap rest : List Char} (hdrug : drug ≠ [])
    (h : benzoMatchAt drug s = some (cap, rest)) : rest.length < s.length := by
  obtain ⟨w, d, fr, sp2, hs, hw, _, hd, _, _, _, _⟩ := benzoMatchAt_shape h
  have h1 : 0 < drug.length := List.length_pos.mpr hdrug
  have h2 : 0 < w.length := List.length_pos.mpr hw
  rw [hs]
  simp only [List.length_append, String.length_data]
  omega

/-- No clonazepam-pattern match overlaps an occurrence of
`"clonazepam 1mg tid"` other than at the match start: a match that does not
begin at the occurrence leaves the occurrence intact in the remainder. -/
lemma clonazepam_no_overlap {s cap rest : List Char}
    (h : benzoMatchAt "clonazepam".data s = some (cap, rest))
    (hc : containsL "clonazepam 1mg tid".data s = true)
    (hns : startsWithL "clonazepam 1mg tid".data s = false) :
    containsL "clonazepam 1mg tid".data rest = true := by
  obtain ⟨w, d, fr, sp2, hs, hw0, hwsp, hd0, hdg, hfrc, hsp2, hcap⟩ := benzoMatchAt_shape h
  set M := "clonazepam".data ++ w ++ d ++ fr ++ sp2 ++ "mg".data with hM
  have hsM : s = M ++ rest := hs
  have htaileq : M.tail = "lonazepam".data ++ (w ++ (d ++ (fr ++ (sp2 ++ "mg".data)))) := by
    rw [hM]; simp [List.append_assoc]
  have htail : ∀ c ∈ M.tail, c ≠ 'c' := by
    intro c hcm
    rw [htaileq] at hcm
    rcases List.mem_append.mp hcm with h1 | h1
    · intro hce; subst hce; revert h1; decide
    rcases List.mem_append.mp h1 with h2 | h2
    · intro hce; subst hce; have := hwsp _ h2; revert this; decide
    rcases List.mem_append.mp h2 with h3 | h3
    · intro hce; subst hce; have := hdg _ h3; revert this; decide
    rcases List.mem_append.mp h3 with h4 | h4
    · intro hce; subst hce
      rcases hfrc _ h4 with h5 | h5
      · revert h5; decide
      · cases h5
    rcases List.mem_append.mp h4 with h5 | h5
    · intro hce; subst hce; have := hsp2 _ h5; revert this; decide
    · intro hce; subst hce; revert h5; decide
  obtain ⟨l, r, hlr⟩ := (containsL_iff _ s).mp hc
  have hlne : l ≠ [] := by
    intro hl
    subst hl
    simp only [List.nil_append] at hlr
    have hsw : startsWithL "clonazepam 1mg tid".data s = true :=
      (startsWithL_iff _ _).mpr ⟨r, by rw [hlr]⟩
    rw [hsw] at hns
    exact Bool.noConfusion hns
  have heq : l ++ ("clonazepam 1mg tid".data ++ r) = M ++ rest := by
    rw [← hsM, hlr]; simp [List.append_assoc]
  by_cases hlen : M.length ≤ l.length
  · -- the occurrence lies entirely in the remainder
    have htake : l.take M.length = M := by
      have := congrArg (List.take M.length) heq
      rw [List.take_append_of_le_length hlen] at this
      rw [this, List.take_left]
    have hdropped : l.drop M.length ++ ("clonazepam 1mg tid".data ++ r) = rest := by
      have := congrArg (List.drop M.length) heq
      rw [List.drop_append_of_le_length hlen, List.drop_left] at this
      exact this
    refine (containsL_iff _ rest).mpr ⟨l.drop M.length, r, ?_⟩
    rw [← hdropped]; simp [List.append_assoc]
  · -- the occurrence would have to start inside the matched region: impossible
    exfalso
    push_neg at hlen
    have htake : l = M.take l.length := by
      have h1 := congrArg (List.take l.length) heq
      rw [List.take_left, List.take_append_of_le_length (le_of_lt hlen)] at h1
      exact h1
    have hdropped : "clonazepam 1mg tid".data ++ r = M.drop l.length ++ rest := by
      have := congrArg (List.drop l.length) heq
      rw [List.drop_left, List.drop_append_of_le_length (le_of_lt hlen)] at this
      exact this
    have hMdrop : M.drop l.length ≠ [] := by
      intro hnil
      have := congrArg List.length hnil
      rw [List.length_drop] at this
      simp at this
      omega
    obtain ⟨m0, m2, hm0⟩ := List.exists_cons_of_ne_nil hMdrop
    have hm0c : m0 = 'c' := by
      rw [hm0] at hdropped
      have : ('c' :: "lonazepam 1mg tid".data) ++ r = m0 :: (m2 ++ rest) := by
        simpa using hdropped
      exact (List.cons.injEq _ _ _ _ ▸ this).1.symm
    have hm0mem : m0 ∈ M.tail := by
      have h1 : M.drop l.length = M.tail.drop (l.length - 1) := by
        have : l.length = (l.length - 1) + 1 := by
          have := List.length_pos.mpr hlne; omega
        rw [this]
        cases M with
        | nil => simp
        | cons a as => simp [List.drop_succ_cons]
      have : m0 ∈ M.drop l.length := by rw [hm0]; exact List.mem_cons_self _ _
      rw [h1] at this
      exact List.drop_subset _ _ this
    exact htail m0 hm0mem hm0c

/-- At the head of an occurrence of `"clonazepam 1mg tid"`, the clonazepam
pattern matches and captures exactly the dose `1`. -/
lemma benzoMatchAt_occ (t : List Char) :
    benzoMatchAt "clonazepam".data ("clonazepam 1mg tid".data ++ t) =
      some (['1'], [' ', 't', 'i', 'd'] ++ t) := rfl

/-- Any text containing `"clonazepam 1mg tid"` yields the captured dose `1`
somewhere in the findall scan. -/
lemma benzo_scan_finds : ∀ (fuel : Nat) (s : List Char), s.length < fuel →
    containsL "clonazepam 1mg tid".data s = true →
    ['1'] ∈ benzoFindAux "clonazepam".data fuel s := by
  intro fuel
  induction fuel with
  | zero => intro s h; omega
  | succ fuel ih =>
      intro s hlen hc
      match s with
      | [] => exact absurd hc (by decide)
      | c :: cs =>
          rw [benzoFindAux]
          cases hm : benzoMatchAt "clonazepam".data (c :: cs) with
          | none =>
              simp only [hm]
              cases hsw : startsWithL "clonazepam 1mg tid".data (c :: cs) with
              | true =>
                  obtain ⟨t, ht⟩ := (startsWithL_iff _ _).mp hsw
                  rw [ht, benzoMatchAt_occ] at hm
                  cases hm
              | false =>
                  have hc' : containsL "clonazepam 1mg tid".data cs = true := by
                    rw [containsL, hsw] at hc
                    simpa using hc
                  have : cs.length < fuel := by
                    simp only [List.length_cons] at hlen; omega
                  exact ih cs this hc'
          | some capRest =>
              obtain ⟨cap, rest⟩ := capRest
              simp only [hm]
              cases hsw : startsWithL "clonazepam 1mg tid".data (c :: cs) with
              | true =>
                  obtain ⟨t, ht⟩ := (startsWithL_iff _ _).mp hsw
                  rw [ht, benzoMatchAt_occ] at hm
                  injection hm with hm
                  have hcap : cap = ['1'] := ((Prod.mk.injEq _ _ _ _).mp hm.symm).1
                  rw [hcap]
                  exact List.mem_cons_self _ _
              | false =>
                  have hrest := clonazepam_no_overlap hm hc hsw
                  have hr1 : rest.length < (c :: cs).length :=
                    benzoMatchAt_rest_length (by decide) hm
                  have hr2 : rest.length < fuel := by
                    simp only [List.length_cons] at hlen hr1; omega
                  exact List.mem_cons_of_mem _ (ih rest hr2 hrest)



/-- C9: a plan containing "Clonazepam 1mg TID" always triggers the high-dose
benzodiazepine warning with computed daily total 3 mg (1 mg × 3 for the TID
token) against the 2 mg/day clonazepam ceiling; and the plan
"Clonazepam 0.5mg QHS PRN" (no scheduled-frequency token, multiplier ×1,
0.5 mg/day ≤ 2 mg/day) never yields a high-dose warning, whatever the other
sections contain. -/
theorem benzo_dose_ceiling_check :
    (∀ note : SOAPNote,
       containsL "Clonazepam 1mg TID".data note.plan.data = true →
       highDoseWarning "clonazepam" 3 1 2 ∈ validate_clinical_logic note) ∧
    (∀ note : SOAPNote, note.plan = "Clonazepam 0.5mg QHS PRN" →
       ∀ w ∈ validate_clinical_logic note,
         containsS "HIGH-DOSE BENZODIAZEPINE" w = false) := by
  constructor
  · intro note hp
    have hlow : containsL "clonazepam 1mg tid".data (lowerL note.plan.data) = true := by
      have h1 := containsL_map lcase hp
      rw [show List.map lcase "Clonazepam 1mg TID".data =
          "clonazepam 1mg tid".data from by decide] at h1
      exact h1
    have hmem : ['1'] ∈ benzoFindall "clonazepam".data (lowerL note.plan.data) :=
      benzo_scan_finds _ _ (Nat.lt_succ_self _) hlow
    have htid : containsL "tid".data (lowerL note.plan.data) = true :=
      containsL_trans (by decide) hlow
    have hfm : freqMultiplier (lowerL note.plan.data) = 3 := by
      rw [freqMultiplier, if_pos htid]
    have hwarn : highDoseWarning "clonazepam" 3 1 2 ∈
        benzoWarningsFor (lowerL note.plan.data) "clonazepam" 2 "clonazepam" := by
      rw [benzoWarningsFor, List.mem_filterMap]
      refine ⟨['1'], hmem, ?_⟩
      have hpd : parseDose ['1'] = (1, 1) := by decide
      simp only [hfm, hpd]
      norm_num
    rw [validate_clinical_logic]
    apply List.mem_append_right
    simp only [benzo_patterns, List.map_cons, List.flatten_cons]
    exact List.mem_append_left _ hwarn
  · intro note hp w hw
    rw [validate_clinical_logic, hp] at hw
    have h1 : (pain_meds.any fun m =>
        containsL m.data (lowerL "Clonazepam 0.5mg QHS PRN".data)) = false := by decide
    have h2 : tidPrnWarnings (lowerL "Clonazepam 0.5mg QHS PRN".data) = [] := by decide
    have h3 : (List.map (fun p =>
        benzoWarningsFor (lowerL "Clonazepam 0.5mg QHS PRN".data) p.1 p.2.1 p.2.2)
        benzo_patterns).flatten = [] := by decide
    have h4 : findMedsSection (lowerL "Clonazepam 0.5mg QHS PRN".data) = none := by decide
    simp only [h1, h2, h3, h4, Bool.false_and, Bool.false_eq_true, if_false,
      List.append_nil] at hw
    by_cases hv : vitalSearch (lowerL note.subjective.data) = true
    · rw [if_pos hv] at hw
      by_cases hs : containsL "no significant findings".data (lowerL note.objective.data) = true
      · rw [if_pos hs] at hw
        simp only [List.append_nil, List.mem_singleton, List.mem_append] at hw
        rcases hw with hw | hw
        decide
      · rw [if_neg hs] at hw
        simp only [List.append_nil, List.mem_singleton] at hw
        subst hw
        decide
    · rw [if_neg hv] at hw
      by_cases hs : containsL "no significant findings".data (lowerL note.objective.data) = true
      · rw [if_pos hs] at hw
        simp at hw
      · rw [if_neg hs] at hw
        simp at hw


/-- Witness for C9: a concrete plan containing "Clonazepam 1mg TID" carries
the high-dose warning; the PRN plan yields none. -/
theorem benzo_dose_ceiling_check_witness :
    highDoseWarning "clonazepam" 3 1 2 ∈
      validate_clinical_logic ⟨"s", "o", "a", "Clonazepam 1mg TID"⟩ ∧
    (∀ w ∈ validate_clinical_logic
        ⟨"BP: 120/80", "o", "a", "Clonazepam 0.5mg QHS PRN"⟩,
       containsS "HIGH-DOSE BENZODIAZEPINE" w = false) :=
  ⟨benzo_dose_ceiling_check.1 ⟨"s", "o", "a", "Clonazepam 1mg TID"⟩ (by decide),
   benzo_dose_ceiling_check.2 ⟨"BP: 120/80", "o", "a", "Clonazepam 0.5mg QHS PRN"⟩ rfl⟩

/-! ### Lemmas for the note extractor -/

/-- `pickSection` never yields the empty string, and yields exactly the
sentinel when no candidate has usable cleaned content. -/
lemma pickSection_spec (cands : List (List Char)) :
    pickSection cands ≠ "" ∧
    ((∀ cap ∈ cands, goodContent (cleanContent cap) = false) →
      pickSection cands = sentinel) := by
  cases hf : (cands.map cleanContent).find? goodContent with
  | none =>
      rw [pickSection, hf]
      exact ⟨by decide, fun _ => rfl⟩
  | some c =>
      rw [pickSection, hf]
      constructor
      · have hg := List.find?_some hf
        simp only [goodContent, Bool.and_eq_true, decide_eq_true_eq] at hg
        intro he
        have hcnil : c = [] := by
          have := congrArg String.data he
          simpa using this
        rw [hcnil] at hg
        simp at hg
      · intro hall
        exfalso
        have hmem := List.mem_of_find?_eq_some hf
        obtain ⟨cap, hcap, hc⟩ := List.mem_map.mp hmem
        have hbad := hall cap hcap
        rw [hc] at hbad
        have hg := List.find?_some hf
        rw [hbad] at hg
        cases hg

/-- C6: for every raw response string, `_parse_soap_response` returns a
`SOAPNote` whose four sections are all non-empty; and any section for which
no finditer candidate has cleaned content longer than 5 characters and free
of the separator artifacts (`---`, `Note**`) — in particular a section
whose header is absent, where the candidate list is empty — equals exactly
the sentinel `"Not documented in this encounter"`. -/
theorem parse_soap_nonempty_and_sentinel_fallback :
    ∀ response : String,
      ((parse_soap_response response).subjective ≠ "" ∧
       (parse_soap_response response).objective ≠ "" ∧
       (parse_soap_response response).assessment ≠ "" ∧
       (parse_soap_response response).plan ≠ "") ∧
      ((∀ cap ∈ sectionFindall "SUBJECTIVE:".data (headerStop "OBJECTIVE".data)
          response.data, goodContent (cleanContent cap) = false) →
        (parse_soap_response response).subjective = sentinel) ∧
      ((∀ cap ∈ sectionFindall "OBJECTIVE:".data (headerStop "ASSESSMENT".data)
          response.data, goodContent (cleanContent cap) = false) →
        (parse_soap_response response).objective = sentinel) ∧
      ((∀ cap ∈ sectionFindall "ASSESSMENT:".data (headerStop "PLAN".data)
          response.data, goodContent (cleanContent cap) = false) →
        (parse_soap_response response).assessment = sentinel) ∧
      ((∀ cap ∈ sectionFindall "PLAN:".data planStop response.data,
          goodContent (cleanContent cap) = false) →
        (parse_soap_response response).plan = sentinel) := by
  intro response
  exact ⟨⟨(pickSection_spec _).1, (pickSection_spec _).1,
          (pickSection_spec _).1, (pickSection_spec _).1⟩,
         (pickSection_spec _).2, (pickSection_spec _).2,
         (pickSection_spec _).2, (pickSection_spec _).2⟩

/-- Witness for C6: the empty response (no headers at all) falls back to
the sentinel in all four sections. -/
theorem parse_soap_nonempty_and_sentinel_fallback_witness :
    (parse_soap_response "").subjective = sentinel ∧
    (parse_soap_response "").objective = sentinel ∧
    (parse_soap_response "").assessment = sentinel ∧
    (parse_soap_response "").plan = sentinel := by
  have h := parse_soap_nonempty_and_sentinel_fallback ""
  exact ⟨h.2.1 (by decide), h.2.2.1 (by decide),
         h.2.2.2.1 (by decide), h.2.2.2.2 (by decide)⟩

/-- Witness for C4 (amended) at a concrete successful run. -/
theorem stage_checkpoints_exact_witness :
    ((process (fun _ => .ok ⟨"hello doctor", "en", 5⟩)
        (fun _ _ => .ok ⟨"s", "o", "a", "p"⟩)
        (some (fun _ _ _ => .ok ())) "j" "a.mp3" 0 7).2.filter
      (fun e => e.status = .generating)).map (fun e => e.progress) = [50, 65, 80, 100] :=
  ((stage_checkpoints_exact (fun _ => .ok ⟨"hello doctor", "en", 5⟩)
      (fun _ _ => .ok ⟨"s", "o", "a", "p"⟩)
      (fun _ _ _ => .ok ()) "j" "a.mp3" 0 7
      ⟨"hello doctor", "en", 5⟩ ⟨"s", "o", "a", "p"⟩ rfl rfl).1).2

end MedScribe

namespace MedScribe
/-! ### Lemmas for the extractor round-trip -/

/-- A matched prefix is at most as long as the text. -/
lemma startsWithL_le_length {p t : List Char} (h : startsWithL p t = true) :
    p.length ≤ t.length := by
  obtain ⟨r, rfl⟩ := (startsWithL_iff p t).mp h
  simp

/-- A newline blocks a pattern without newlines from crossing an append
boundary (exact matching). -/
lemma startsWithL_newline_block {pat : List Char}
    (hnl : ∀ c ∈ pat, ¬ c = '\n') :
    ∀ t w, startsWithL pat (t ++ '\n' :: w) = true → startsWithL pat t = true := by
  induction pat with
  | nil => intro t w _; rfl
  | cons x ps ih =>
      intro t w h
      cases t with
      | nil =>
          simp only [List.nil_append, startsWithL, Bool.and_eq_true,
            decide_eq_true_eq] at h
          exact absurd h.1 (hnl x (List.mem_cons_self x ps))
      | cons c ts =>
          simp only [List.cons_append, startsWithL, Bool.and_eq_true,
            decide_eq_true_eq] at h ⊢
          exact ⟨h.1, ih (fun c hc => hnl c (List.mem_cons_of_mem x hc)) ts w h.2⟩

/-- A newline blocks a pattern without (lower-cased) newlines from crossing
an append boundary (case-insensitive matching). -/
lemma startsWithCIL_newline_block {pat : List Char}
    (hnl : ∀ c ∈ pat, ¬ lcase c = '\n') :
    ∀ t w, startsWithCIL pat (t ++ '\n' :: w) = true → startsWithCIL pat t = true := by
  induction pat with
  | nil => intro t w _; rfl
  | cons x ps ih =>
      intro t w h
      cases t with
      | nil =>
          simp only [List.nil_append, startsWithCIL, Bool.and_eq_true,
            decide_eq_true_eq] at h
          have h1 : lcase '\n' = '\n' := by decide
          exact absurd (h.1.trans h1) (hnl x (List.mem_cons_self x ps))
      | cons c ts =>
          simp only [List.cons_append, startsWithCIL, Bool.and_eq_true,
            decide_eq_true_eq] at h ⊢
          exact ⟨h.1, ih (fun c hc => hnl c (List.mem_cons_of_mem x hc)) ts w h.2⟩

/-- A prefix match is an occurrence. -/
lemma containsL_of_startsWithL {p t : List Char} (h : startsWithL p t = true) :
    containsL p t = true := by
  cases t with
  | nil => exact h
  | cons c cs => simp [containsL, h]

/-- A prefix match is an occurrence (case-insensitive). -/
lemma containsCIL_of_startsWithCIL {p t : List Char} (h : startsWithCIL p t = true) :
    containsCIL p t = true := by
  cases t with
  | nil => exact h
  | cons c cs => simp [containsCIL, h]

/-- Absence of occurrences passes to suffixes. -/
lemma containsL_of_suffix {p t s : List Char} (hts : List.IsSuffix t s)
    (h : containsL p s = false) : containsL p t = false := by
  obtain ⟨pre, rfl⟩ := hts
  induction pre with
  | nil => exact h
  | cons x xs ih =>
      apply ih
      rw [List.cons_append, containsL] at h
      exact (Bool.or_eq_false_iff.mp h).2

/-- Absence of occurrences passes to suffixes (case-insensitive). -/
lemma containsCIL_of_suffix {p t s : List Char} (hts : List.IsSuffix t s)
    (h : containsCIL p s = false) : containsCIL p t = false := by
  obtain ⟨pre, rfl⟩ := hts
  induction pre with
  | nil => exact h
  | cons x xs ih =>
      apply ih
      rw [List.cons_append, containsCIL] at h
      exact (Bool.or_eq_false_iff.mp h).2

/-- Absence of occurrences passes to drops. -/
lemma containsL_of_drop {p t : List Char} (k : Nat)
    (h : containsL p t = false) : containsL p (t.drop k) = false :=
  containsL_of_suffix (List.drop_suffix k t) h

/-- Absence of occurrences passes to drops (case-insensitive). -/
lemma containsCIL_of_drop {p t : List Char} (k : Nat)
    (h : containsCIL p t = false) : containsCIL p (t.drop k) = false :=
  containsCIL_of_suffix (List.drop_suffix k t) h

/-- Inside a body free of the next header and of `---`, followed by a
newline, no header-stop alternative fires. -/
lemma headerStop_false_through {next : List Char}
    (hnl : ∀ c ∈ next ++ [':'], ¬ lcase c = '\n')
    {body : List Char} (hno : containsCIL (next ++ [':']) body = false)
    (hnd : containsL "---".data body = false) :
    ∀ t w, List.IsSuffix t body → headerStop next (t ++ '\n' :: w) = false := by
  intro t w hts
  have hnoT : containsCIL (next ++ [':']) t = false := containsCIL_of_suffix hts hno
  have hndT : containsL "---".data t = false := containsL_of_suffix hts hnd
  have hB : startsWithCIL (next ++ [':']) (t ++ '\n' :: w) = false := by
    cases hsw : startsWithCIL (next ++ [':']) (t ++ '\n' :: w) with
    | false => rfl
    | true =>
        have h1 := startsWithCIL_newline_block hnl t w hsw
        rw [containsCIL_of_startsWithCIL h1] at hnoT
        cases hnoT
  have hC : (startsWithL "**".data (t ++ '\n' :: w) &&
      startsWithCIL (next ++ [':']) ((t ++ '\n' :: w).drop 2)) = false := by
    cases hsw : startsWithL "**".data (t ++ '\n' :: w) with
    | false => rfl
    | true =>
        have h1 := @startsWithL_newline_block "**".data (by decide) t w hsw
        have h2 : 2 ≤ t.length := startsWithL_le_length h1
        have h3 : (t ++ '\n' :: w).drop 2 = t.drop 2 ++ '\n' :: w :=
          List.drop_append_of_le_length h2
        rw [h3]
        cases hsw2 : startsWithCIL (next ++ [':']) (t.drop 2 ++ '\n' :: w) with
        | false => simp
        | true =>
            have h4 := startsWithCIL_newline_block hnl _ w hsw2
            have h5 := containsCIL_of_drop 2 hnoT
            rw [containsCIL_of_startsWithCIL h4] at h5
            cases h5
  have hD : startsWithL "---".data (t ++ '\n' :: w) = false := by
    cases hsw : startsWithL "---".data (t ++ '\n' :: w) with
    | false => rfl
    | true =>
        have h1 := @startsWithL_newline_block "---".data (by decide) t w hsw
        rw [containsL_of_startsWithL h1] at hndT
        cases hndT
  rw [headerStop, hB, hC, hD]
  simp

/-- Inside a body free of `---` and of the plan end-markers, followed by a
newline, no plan-stop alternative fires. -/
lemma planStop_false_through {body : List Char}
    (hnd : containsL "---".data body = false)
    (hend : containsCIL "End of SOAP Note".data body = false)
    (hval : containsCIL "VALIDATION WARNINGS".data body = false) :
    ∀ t w, List.IsSuffix t body → planStop (t ++ '\n' :: w) = false := by
  intro t w hts
  have hndT := containsL_of_suffix hts hnd
  have hendT := containsCIL_of_suffix hts hend
  have hvalT := containsCIL_of_suffix hts hval
  have hA : startsWithL "---".data (t ++ '\n' :: w) = false := by
    cases hsw : startsWithL "---".data (t ++ '\n' :: w) with
    | false => rfl
    | true =>
        have h1 := @startsWithL_newline_block "---".data (by decide) t w hsw
        rw [containsL_of_startsWithL h1] at hndT
        cases hndT
  have hB : startsWithCIL "End of SOAP Note".data (t ++ '\n' :: w) = false := by
    cases hsw : startsWithCIL "End of SOAP Note".data (t ++ '\n' :: w) with
    | false => rfl
    | true =>
        have h1 := @startsWithCIL_newline_block "End of SOAP Note".data
          (by decide) t w hsw
        rw [containsCIL_of_startsWithCIL h1] at hendT
        cases hendT
  have hC : startsWithCIL "VALIDATION WARNINGS".data (t ++ '\n' :: w) = false := by
    cases hsw : startsWithCIL "VALIDATION WARNINGS".data (t ++ '\n' :: w) with
    | false => rfl
    | true =>
        have h1 := @startsWithCIL_newline_block "VALIDATION WARNINGS".data
          (by decide) t w hsw
        rw [containsCIL_of_startsWithCIL h1] at hvalT
        cases hvalT
  rw [planStop, hA, hB, hC]
  simp

/-- Inside the final body (nothing follows), no plan-stop alternative fires
before the end of the text. -/
lemma planStop_false_end {body : List Char}
    (hnd : containsL "---".data body = false)
    (hend : containsCIL "End of SOAP Note".data body = false)
    (hval : containsCIL "VALIDATION WARNINGS".data body = false) :
    ∀ t, List.IsSuffix t body → t ≠ [] → planStop t = false := by
  intro t hts hne
  have hndT := containsL_of_suffix hts hnd
  have hendT := containsCIL_of_suffix hts hend
  have hvalT := containsCIL_of_suffix hts hval
  have hA : startsWithL "---".data t = false := by
    cases hsw : startsWithL "---".data t with
    | false => rfl
    | true => rw [containsL_of_startsWithL hsw] at hndT; cases hndT
  have hB : startsWithCIL "End of SOAP Note".data t = false := by
    cases hsw : startsWithCIL "End of SOAP Note".data t with
    | false => rfl
    | true => rw [containsCIL_of_startsWithCIL hsw] at hendT; cases hendT
  have hC : startsWithCIL "VALIDATION WARNINGS".data t = false := by
    cases hsw : startsWithCIL "VALIDATION WARNINGS".data t with
    | false => rfl
    | true => rw [containsCIL_of_startsWithCIL hsw] at hvalT; cases hvalT
  rw [planStop, hA, hB, hC]
  simp [hne]

/-- Inside a body free (case-insensitively) of the header, followed by a
newline, the section pattern cannot match. -/
lemma sectionMatchAt_none_nl {hdr : List Char} (stop : List Char → Bool)
    (hnl : ∀ c ∈ hdr, ¬ lcase c = '\n')
    {body : List Char} (hno : containsCIL hdr body = false) :
    ∀ t w, List.IsSuffix t body → sectionMatchAt hdr stop (t ++ '\n' :: w) = none := by
  intro t w hts
  have hnoT : containsCIL hdr t = false := containsCIL_of_suffix hts hno
  have hB : startsWithCIL hdr (t ++ '\n' :: w) = false := by
    cases hsw : startsWithCIL hdr (t ++ '\n' :: w) with
    | false => rfl
    | true =>
        have h1 := startsWithCIL_newline_block hnl t w hsw
        rw [containsCIL_of_startsWithCIL h1] at hnoT
        cases hnoT
  have hA : (startsWithL "**".data (t ++ '\n' :: w) &&
      startsWithCIL hdr ((t ++ '\n' :: w).drop 2)) = false := by
    cases hsw : startsWithL "**".data (t ++ '\n' :: w) with
    | false => rfl
    | true =>
        have h1 := @startsWithL_newline_block "**".data (by decide) t w hsw
        have h2 : 2 ≤ t.length := startsWithL_le_length h1
        rw [List.drop_append_of_le_length h2]
        cases hsw2 : startsWithCIL hdr (t.drop 2 ++ '\n' :: w) with
        | false => simp
        | true =>
            have h4 := startsWithCIL_newline_block hnl _ w hsw2
            have h5 := containsCIL_of_drop 2 hnoT
            rw [containsCIL_of_startsWithCIL h4] at h5
            cases h5
  rw [sectionMatchAt]
  simp [hA, hB]

/-- Inside the final body (nothing follows), the section pattern cannot
match. -/
lemma sectionMatchAt_none_end {hdr : List Char} (stop : List Char → Bool)
    {body : List Char} (hno : containsCIL hdr body = false) :
    ∀ t, List.IsSuffix t body → sectionMatchAt hdr stop t = none := by
  intro t hts
  have hnoT : containsCIL hdr t = false := containsCIL_of_suffix hts hno
  have hB : startsWithCIL hdr t = false := by
    cases hsw : startsWithCIL hdr t with
    | false => rfl
    | true => rw [containsCIL_of_startsWithCIL hsw] at hnoT; cases hnoT
  have hA : (startsWithL "**".data t && startsWithCIL hdr (t.drop 2)) = false := by
    cases hsw2 : startsWithCIL hdr (t.drop 2) with
    | false => simp
    | true =>
        have h5 := containsCIL_of_drop 2 hnoT
        rw [containsCIL_of_startsWithCIL hsw2] at h5
        cases h5
  rw [sectionMatchAt]
  simp [hA, hB]

/-- The lazy capture passes through a region where the stop never fires. -/
lemma captureUntilStop_append (stop : List Char → Bool) :
    ∀ b z, (∀ t, List.IsSuffix t b → t ≠ [] → stop (t ++ z) = false) →
      captureUntilStop stop (b ++ z) =
        (b ++ (captureUntilStop stop z).1, (captureUntilStop stop z).2) := by
  intro b
  induction b with
  | nil => intro z _; simp
  | cons c cs ih =>
      intro z hstop
      have h0 : stop ((c :: cs) ++ z) = false :=
        hstop (c :: cs) (List.suffix_refl _) (by simp)
      rw [List.cons_append, captureUntilStop]
      rw [show (c :: (cs ++ z)) = (c :: cs) ++ z from rfl, h0]
      simp only [Bool.false_eq_true, if_false]
      rw [ih z (fun t ht hne => hstop t (ht.trans (List.suffix_cons c cs)) hne)]
      simp

/-- Scanning an empty text yields no matches, whatever the fuel. -/
lemma sectionFindAux_nil (hdr : List Char) (stop : List Char → Bool) :
    ∀ fuel, sectionFindAux hdr stop fuel [] = [] := by
  intro fuel
  cases fuel <;> rfl

/-- The finditer scan passes through a region where the pattern never
matches. -/
lemma sectionFindAux_through (hdr : List Char) (stop : List Char → Bool) :
    ∀ b fuel z,
      (∀ t, List.IsSuffix t b → t ≠ [] → sectionMatchAt hdr stop (t ++ z) = none) →
      b.length ≤ fuel →
      sectionFindAux hdr stop fuel (b ++ z) =
        sectionFindAux hdr stop (fuel - b.length) z := by
  intro b
  induction b with
  | nil => intro fuel z _ _; simp
  | cons c cs ih =>
      intro fuel z hno hfuel
      cases fuel with
      | zero => simp at hfuel
      | succ fuel =>
          have h0 : sectionMatchAt hdr stop ((c :: cs) ++ z) = none :=
            hno (c :: cs) (List.suffix_refl _) (by simp)
          rw [List.cons_append, sectionFindAux]
          rw [show (c :: (cs ++ z)) = (c :: cs) ++ z from rfl, h0]
          rw [ih fuel z (fun t ht hne => hno t (ht.trans (List.suffix_cons c cs)) hne)
            (by simpa using Nat.le_of_succ_le_succ hfuel)]
          simp [Nat.succ_sub_succ]

/-- Case-insensitive matching is reflexive on a prefix. -/
lemma startsWithCIL_refl_append (p : List Char) (r : List Char) :
    startsWithCIL p (p ++ r) = true := by
  induction p with
  | nil => rfl
  | cons x ps ih => simp [startsWithCIL, ih]

/-- The section pattern matches at its own header: the optional `**` does
not participate, the `[\s\n]+` run is the single newline after the header
(the body starts with a non-whitespace character), and the capture is the
lazy scan from the body. -/
lemma sectionMatchAt_at_head (h0 : Char) (hs0 : List Char)
    (stop : List Char → Bool) (body z : List Char) (c0 : Char) (body' : List Char)
    (hbody : body = c0 :: body') (hc0 : isPySpace c0 = false) (hh0 : ¬ h0 = '*')
    (hstop : ∀ t, List.IsSuffix t body → t ≠ [] → stop (t ++ z) = false) :
    sectionMatchAt (h0 :: hs0) stop ((h0 :: hs0) ++ '\n' :: (body ++ z)) =
      some (body ++ (captureUntilStop stop z).1, (captureUntilStop stop z).2) := by
  have hA : startsWithL "**".data ((h0 :: hs0) ++ '\n' :: (body ++ z)) = false := by
    simp [startsWithL, Ne.symm hh0]
  have hB : startsWithCIL (h0 :: hs0) ((h0 :: hs0) ++ '\n' :: (body ++ z)) = true :=
    startsWithCIL_refl_append _ _
  have hdrop : ((h0 :: hs0) ++ '\n' :: (body ++ z)).drop (h0 :: hs0).length =
      '\n' :: (body ++ z) := List.drop_left _ _
  have hnl : isPySpace '\n' = true := rfl
  have htw : ('\n' :: (body ++ z)).takeWhile isPySpace = ['\n'] := by
    rw [hbody, List.cons_append, List.takeWhile_cons, List.takeWhile_cons, hnl, hc0]
    simp
  have hdw : ('\n' :: (body ++ z)).dropWhile isPySpace = body ++ z := by
    rw [hbody, List.cons_append, List.dropWhile_cons, List.dropWhile_cons, hnl, hc0]
    simp
  rw [sectionMatchAt]
  simp only [hA, Bool.false_and, Bool.false_eq_true, if_false, hB, if_true, hdrop,
    htw, hdw]
  have hstar : startsWithL ['*', '*'] ('\n' :: (body ++ z)) = false := rfl
  rw [hstar]
  simp only [Bool.false_eq_true, if_false, htw, hdw]
  rw [captureUntilStop_append stop body z hstop]
  simp

/-- A case-insensitive mismatch inside the concrete part persists under any
extension. -/
lemma startsWithCIL_append_false :
    ∀ (p t X : List Char), startsWithCIL (p.take t.length) t = false →
      startsWithCIL p (t ++ X) = false := by
  intro p
  induction p with
  | nil => intro t X h; simp [startsWithCIL] at h
  | cons q ps ih =>
      intro t X h
      cases t with
      | nil => simp [startsWithCIL] at h
      | cons c cs =>
          rw [List.length_cons, List.take_succ_cons] at h
          rw [List.cons_append]
          simp only [startsWithCIL, Bool.and_eq_false_iff] at h ⊢
          rcases h with h | h
          · exact Or.inl h
          · exact Or.inr (ih cs X h)

/-- A literal mismatch inside the concrete part persists under any
extension. -/
lemma startsWithL_append_false :
    ∀ (p t X : List Char), startsWithL (p.take t.length) t = false →
      startsWithL p (t ++ X) = false := by
  intro p
  induction p with
  | nil => intro t X h; simp [startsWithL] at h
  | cons q ps ih =>
      intro t X h
      cases t with
      | nil => simp [startsWithL] at h
      | cons c cs =>
          rw [List.length_cons, List.take_succ_cons] at h
          rw [List.cons_append]
          simp only [startsWithL, Bool.and_eq_false_iff] at h ⊢
          rcases h with h | h
          · exact Or.inl h
          · exact Or.inr (ih cs X h)

/-- In a concrete segment where every nonempty suffix refutes both the
plain `**` prefix and the case-insensitive header within its own
characters, the section pattern matches nowhere, whatever follows. -/
lemma sectionMatchAt_none_through_seg (hdr : List Char) (stop : List Char → Bool)
    (seg : List Char)
    (h : ∀ t ∈ seg.tails, t ≠ [] →
      startsWithL ("**".data.take t.length) t = false ∧
      startsWithCIL (hdr.take t.length) t = false) :
    ∀ X t, List.IsSuffix t seg → t ≠ [] → sectionMatchAt hdr stop (t ++ X) = none := by
  intro X t ht hne
  obtain ⟨h1, h2⟩ := h t ((List.mem_tails t seg).mpr ht) hne
  have hA : startsWithL "**".data (t ++ X) = false := startsWithL_append_false _ _ _ h1
  have hB : startsWithCIL hdr (t ++ X) = false := startsWithCIL_append_false _ _ _ h2
  rw [sectionMatchAt]
  simp [hA, hB]

/-- Pass-through composition: a match-free region stays match-free when a
match-free region is appended in front. -/
lemma through_append (hdr : List Char) (stop : List Char → Bool)
    (b1 b2 z : List Char)
    (h1 : ∀ t, List.IsSuffix t b1 → t ≠ [] →
      sectionMatchAt hdr stop (t ++ (b2 ++ z)) = none)
    (h2 : ∀ t, List.IsSuffix t b2 → t ≠ [] →
      sectionMatchAt hdr stop (t ++ z) = none) :
    ∀ t, List.IsSuffix t (b1 ++ b2) → t ≠ [] →
      sectionMatchAt hdr stop (t ++ z) = none := by
  intro t ht hne
  obtain ⟨u, hu⟩ := ht
  rcases List.append_eq_append_iff.mp hu with ⟨a1, ha1, ha2⟩ | ⟨c1, hc1, hc2⟩
  · by_cases hcase : a1 = []
    · subst hcase
      rw [List.nil_append] at ha2
      exact h2 t (ha2 ▸ List.suffix_refl t) hne
    · subst ha2
      rw [List.append_assoc]
      exact h1 a1 ⟨u, ha1.symm⟩ hcase
  · exact h2 t ⟨c1, hc2.symm⟩ hne

/-- End version of pass-through composition. -/
lemma through_end_append (hdr : List Char) (stop : List Char → Bool)
    (b1 b2 : List Char)
    (h1 : ∀ t, List.IsSuffix t b1 → t ≠ [] →
      sectionMatchAt hdr stop (t ++ b2) = none)
    (h2 : ∀ t, List.IsSuffix t b2 → t ≠ [] → sectionMatchAt hdr stop t = none) :
    ∀ t, List.IsSuffix t (b1 ++ b2) → t ≠ [] → sectionMatchAt hdr stop t = none := by
  intro t ht hne
  have h := through_append hdr stop b1 b2 []
    (by intro t' ht' hne'; rw [List.append_nil]; exact h1 t' ht' hne')
    (by intro t' ht' hne'; rw [List.append_nil]; exact h2 t' ht' hne')
    t (by simpa using ht) hne
  simpa using h

/-- If the pattern matches nowhere in the remainder, the scan returns no
matches, whatever the fuel. -/
lemma sectionFindAux_none_all (hdr : List Char) (stop : List Char → Bool) :
    ∀ rest fuel,
      (∀ t, List.IsSuffix t rest → t ≠ [] → sectionMatchAt hdr stop t = none) →
      sectionFindAux hdr stop fuel rest = [] := by
  intro rest
  induction rest with
  | nil => intro fuel _; exact sectionFindAux_nil _ _ _
  | cons c cs ih =>
      intro fuel h
      cases fuel with
      | zero => rfl
      | succ f =>
          have h0 : sectionMatchAt hdr stop (c :: cs) = none :=
            h (c :: cs) (List.suffix_refl _) (by simp)
          rw [sectionFindAux, h0]
          exact ih f (fun t ht hne => h t (ht.trans (List.suffix_cons c cs)) hne)

/-- One scan step at a successful match position. -/
lemma sectionFindAux_match (hdr : List Char) (stop : List Char → Bool)
    (fuel : Nat) (s cap rest : List Char) (hs : s ≠ [])
    (h : sectionMatchAt hdr stop s = some (cap, rest)) :
    sectionFindAux hdr stop (fuel + 1) s = cap :: sectionFindAux hdr stop fuel rest := by
  cases s with
  | nil => exact absurd rfl hs
  | cons c cs => rw [sectionFindAux, h]

/-- A findall over a text with exactly one match position returns exactly
that capture. -/
lemma sectionFindall_single (hdr : List Char) (stop : List Char → Bool)
    (pre mid cap rest : List Char)
    (hpre : ∀ t, List.IsSuffix t pre → t ≠ [] →
      sectionMatchAt hdr stop (t ++ mid) = none)
    (hmid : mid ≠ [])
    (hmatch : sectionMatchAt hdr stop mid = some (cap, rest))
    (hpost : ∀ t, List.IsSuffix t rest → t ≠ [] → sectionMatchAt hdr stop t = none) :
    sectionFindall hdr stop (pre ++ mid) = [cap] := by
  unfold sectionFindall
  have hf1 : (pre ++ mid).length + 1 = pre.length + (mid.length + 1) := by
    rw [List.length_append]; omega
  rw [hf1]
  have h2 := sectionFindAux_through hdr stop pre (pre.length + (mid.length + 1)) mid
    hpre (by omega)
  rw [h2]
  have hf2 : pre.length + (mid.length + 1) - pre.length = mid.length + 1 := by omega
  rw [hf2, sectionFindAux_match hdr stop mid.length mid cap rest hmid hmatch,
    sectionFindAux_none_all hdr stop rest mid.length hpost]

/-- The lazy capture keeps a character where the lookahead fails. -/
lemma captureUntilStop_cons (stop : List Char → Bool) (c : Char) (cs : List Char)
    (h : stop (c :: cs) = false) :
    captureUntilStop stop (c :: cs) =
      (c :: (captureUntilStop stop cs).1, (captureUntilStop stop cs).2) := by
  simp [captureUntilStop, h]

/-- The lazy capture stops where the lookahead holds. -/
lemma captureUntilStop_here (stop : List Char → Bool) (l : List Char)
    (hne : l ≠ []) (h : stop l = true) : captureUntilStop stop l = ([], l) := by
  cases l with
  | nil => exact absurd rfl hne
  | cons c cs => simp [captureUntilStop, h]

/-- A usable body starts with a non-whitespace character. -/
lemma sectionBody_head {b : List Char} (h : sectionBody b = true) :
    ∃ c0 b', b = c0 :: b' ∧ isPySpace c0 = false := by
  cases b with
  | nil => simp [sectionBody] at h
  | cons c cs =>
      refine ⟨c, cs, rfl, ?_⟩
      simp only [sectionBody, List.head?_cons, Bool.and_eq_true,
        Bool.not_eq_true'] at h
      exact h.1.1.1.1.1.1

/-- The component facts packed into `sectionBody`. -/
lemma sectionBody_parts {b : List Char} (h : sectionBody b = true) :
    containsCIL "SUBJECTIVE:".data b = false ∧
    containsCIL "OBJECTIVE:".data b = false ∧
    containsCIL "ASSESSMENT:".data b = false ∧
    containsCIL "PLAN:".data b = false ∧
    containsL "---".data b = false ∧
    goodContent b = true := by
  simp only [sectionBody, Bool.and_eq_true, Bool.not_eq_true'] at h
  exact ⟨h.1.1.1.1.1.2, h.1.1.1.1.2, h.1.1.1.2, h.1.1.2, h.1.2, h.2⟩

/-- The subjective pattern matches at the head of the canonical response,
capturing the body and the newline before the objective header. -/
lemma matchAt_subj (s o a p : List Char) (c0 : Char) (s' : List Char)
    (hs0 : s = c0 :: s') (hc0 : isPySpace c0 = false)
    (hno : containsCIL "OBJECTIVE:".data s = false)
    (hnd : containsL "---".data s = false) :
    sectionMatchAt "SUBJECTIVE:".data (headerStop "OBJECTIVE".data)
      (roundTripText s o a p) = some (s ++ ['\n'], rtRestS o a p) := by
  have hstop : ∀ t, List.IsSuffix t s → t ≠ [] →
      headerStop "OBJECTIVE".data (t ++ ('\n' :: rtRestS o a p)) = false := by
    intro t ht _
    exact headerStop_false_through (by decide) hno hnd t (rtRestS o a p) ht
  have h := sectionMatchAt_at_head 'S' "UBJECTIVE:".data (headerStop "OBJECTIVE".data)
      s ('\n' :: rtRestS o a p) c0 s' hs0 hc0 (by decide) hstop
  have hNL : headerStop "OBJECTIVE".data ('\n' :: rtRestS o a p) = false :=
    @headerStop_false_through "OBJECTIVE".data (by decide) [] (by decide) (by decide)
      [] (rtRestS o a p) List.nil_suffix
  have hW : headerStop "OBJECTIVE".data (rtRestS o a p) = true := by
    have hsw : startsWithCIL ("OBJECTIVE".data ++ [':']) (rtRestS o a p) = true :=
      startsWithCIL_refl_append "OBJECTIVE:".data
        ('\n' :: (o ++ ("\nASSESSMENT:\n".data ++ (a ++ ("\nPLAN:\n".data ++ p)))))
    rw [headerStop, hsw]
    simp
  have hcapW : captureUntilStop (headerStop "OBJECTIVE".data) (rtRestS o a p) =
      ([], rtRestS o a p) :=
    captureUntilStop_here _ _ (by rw [rtRestS]; simp) hW
  have hcapNL : captureUntilStop (headerStop "OBJECTIVE".data)
      ('\n' :: rtRestS o a p) = (['\n'], rtRestS o a p) := by
    rw [captureUntilStop_cons _ _ _ hNL, hcapW]
  rw [hcapNL] at h
  exact h

/-- The objective pattern matches at the objective header of the canonical
response. -/
lemma matchAt_obj (o a p : List Char) (c0 : Char) (o' : List Char)
    (ho0 : o = c0 :: o') (hc0 : isPySpace c0 = false)
    (hno : containsCIL "ASSESSMENT:".data o = false)
    (hnd : containsL "---".data o = false) :
    sectionMatchAt "OBJECTIVE:".data (headerStop "ASSESSMENT".data)
      (rtRestS o a p) = some (o ++ ['\n'], rtRestO a p) := by
  have hstop : ∀ t, List.IsSuffix t o → t ≠ [] →
      headerStop "ASSESSMENT".data (t ++ ('\n' :: rtRestO a p)) = false := by
    intro t ht _
    exact headerStop_false_through (by decide) hno hnd t (rtRestO a p) ht
  have h := sectionMatchAt_at_head 'O' "BJECTIVE:".data (headerStop "ASSESSMENT".data)
      o ('\n' :: rtRestO a p) c0 o' ho0 hc0 (by decide) hstop
  have hNL : headerStop "ASSESSMENT".data ('\n' :: rtRestO a p) = false :=
    @headerStop_false_through "ASSESSMENT".data (by decide) [] (by decide) (by decide)
      [] (rtRestO a p) List.nil_suffix
  have hW : headerStop "ASSESSMENT".data (rtRestO a p) = true := by
    have hsw : startsWithCIL ("ASSESSMENT".data ++ [':']) (rtRestO a p) = true :=
      startsWithCIL_refl_append "ASSESSMENT:".data
        ('\n' :: (a ++ ("\nPLAN:\n".data ++ p)))
    rw [headerStop, hsw]
    simp
  have hcapW : captureUntilStop (headerStop "ASSESSMENT".data) (rtRestO a p) =
      ([], rtRestO a p) :=
    captureUntilStop_here _ _ (by rw [rtRestO]; simp) hW
  have hcapNL : captureUntilStop (headerStop "ASSESSMENT".data)
      ('\n' :: rtRestO a p) = (['\n'], rtRestO a p) := by
    rw [captureUntilStop_cons _ _ _ hNL, hcapW]
  rw [hcapNL] at h
  exact h

/-- The assessment pattern matches at the assessment header of the
canonical response. -/
lemma matchAt_assess (a p : List Char) (c0 : Char) (a' : List Char)
    (ha0 : a = c0 :: a') (hc0 : isPySpace c0 = false)
    (hno : containsCIL "PLAN:".data a = false)
    (hnd : containsL "---".data a = false) :
    sectionMatchAt "ASSESSMENT:".data (headerStop "PLAN".data)
      (rtRestO a p) = some (a ++ ['\n'], rtRestA p) := by
  have hstop : ∀ t, List.IsSuffix t a → t ≠ [] →
      headerStop "PLAN".data (t ++ ('\n' :: rtRestA p)) = false := by
    intro t ht _
    exact headerStop_false_through (by decide) hno hnd t (rtRestA p) ht
  have h := sectionMatchAt_at_head 'A' "SSESSMENT:".data (headerStop "PLAN".data)
      a ('\n' :: rtRestA p) c0 a' ha0 hc0 (by decide) hstop
  have hNL : headerStop "PLAN".data ('\n' :: rtRestA p) = false :=
    @headerStop_false_through "PLAN".data (by decide) [] (by decide) (by decide)
      [] (rtRestA p) List.nil_suffix
  have hW : headerStop "PLAN".data (rtRestA p) = true := by
    have hsw : startsWithCIL ("PLAN".data ++ [':']) (rtRestA p) = true :=
      startsWithCIL_refl_append "PLAN:".data ('\n' :: p)
    rw [headerStop, hsw]
    simp
  have hcapW : captureUntilStop (headerStop "PLAN".data) (rtRestA p) =
      ([], rtRestA p) :=
    captureUntilStop_here _ _ (by rw [rtRestA]; simp) hW
  have hcapNL : captureUntilStop (headerStop "PLAN".data)
      ('\n' :: rtRestA p) = (['\n'], rtRestA p) := by
    rw [captureUntilStop_cons _ _ _ hNL, hcapW]
  rw [hcapNL] at h
  exact h

/-- The plan pattern matches at the plan header of the canonical response,
capturing the body to the end of the text. -/
lemma matchAt_plan (p : List Char) (c0 : Char) (p' : List Char)
    (hp0 : p = c0 :: p') (hc0 : isPySpace c0 = false)
    (hnd : containsL "---".data p = false)
    (hend : containsCIL "End of SOAP Note".data p = false)
    (hval : containsCIL "VALIDATION WARNINGS".data p = false) :
    sectionMatchAt "PLAN:".data planStop (rtRestA p) = some (p, []) := by
  have hstop : ∀ t, List.IsSuffix t p → t ≠ [] → planStop (t ++ ([] : List Char)) = false := by
    intro t ht hne
    rw [List.append_nil]
    exact planStop_false_end hnd hend hval t ht hne
  have h := sectionMatchAt_at_head 'P' "LAN:".data planStop
      p [] c0 p' hp0 hc0 (by decide) hstop
  have hcap : captureUntilStop planStop [] = ([], []) := rfl
  rw [hcap] at h
  simpa using h

/-- The subjective findall over the canonical response returns exactly the
subjective capture. -/
lemma findall_subj (s o a p : List Char)
    (hs : sectionBody s = true) (ho : sectionBody o = true)
    (ha : sectionBody a = true) (hp : sectionBody p = true) :
    sectionFindall "SUBJECTIVE:".data (headerStop "OBJECTIVE".data)
      (roundTripText s o a p) = [s ++ ['\n']] := by
  obtain ⟨c0, s', hs0, hc0⟩ := sectionBody_head hs
  obtain ⟨hsS, hsO, hsA, hsP, hsD, hsG⟩ := sectionBody_parts hs
  obtain ⟨hoS, hoO, hoA, hoP, hoD, hoG⟩ := sectionBody_parts ho
  obtain ⟨haS, haO, haA, haP, haD, haG⟩ := sectionBody_parts ha
  obtain ⟨hpS, hpO, hpA, hpP, hpD, hpG⟩ := sectionBody_parts hp
  have hpost : ∀ t, List.IsSuffix t (rtRestS o a p) → t ≠ [] →
      sectionMatchAt "SUBJECTIVE:".data (headerStop "OBJECTIVE".data) t = none :=
    through_end_append _ _ "OBJECTIVE:\n".data
      (o ++ ("\nASSESSMENT:\n".data ++ (a ++ ("\nPLAN:\n".data ++ p))))
      (sectionMatchAt_none_through_seg _ _ _ (by decide) _)
      (through_end_append _ _ o ("\nASSESSMENT:\n".data ++ (a ++ ("\nPLAN:\n".data ++ p)))
        (fun t ht _ => sectionMatchAt_none_nl _ (by decide) hoS t
          ("ASSESSMENT:\n".data ++ (a ++ ("\nPLAN:\n".data ++ p))) ht)
        (through_end_append _ _ "\nASSESSMENT:\n".data (a ++ ("\nPLAN:\n".data ++ p))
          (sectionMatchAt_none_through_seg _ _ _ (by decide) _)
          (through_end_append _ _ a ("\nPLAN:\n".data ++ p)
            (fun t ht _ => sectionMatchAt_none_nl _ (by decide) haS t
              ("PLAN:\n".data ++ p) ht)
            (through_end_append _ _ "\nPLAN:\n".data p
              (sectionMatchAt_none_through_seg _ _ _ (by decide) _)
              (fun t ht _ => sectionMatchAt_none_end _ hpS t ht)))))
  exact sectionFindall_single _ _ [] (roundTripText s o a p) (s ++ ['\n']) (rtRestS o a p)
    (fun t ht hne => absurd (List.suffix_nil.mp ht) hne)
    (by simp [roundTripText])
    (matchAt_subj s o a p c0 s' hs0 hc0 hsO hsD)
    hpost

/-- The objective findall over the canonical response returns exactly the
objective capture. -/
lemma findall_obj (s o a p : List Char)
    (hs : sectionBody s = true) (ho : sectionBody o = true)
    (ha : sectionBody a = true) (hp : sectionBody p = true) :
    sectionFindall "OBJECTIVE:".data (headerStop "ASSESSMENT".data)
      (roundTripText s o a p) = [o ++ ['\n']] := by
  obtain ⟨c0, o', ho0, hc0⟩ := sectionBody_head ho
  obtain ⟨hsS, hsO, hsA, hsP, hsD, hsG⟩ := sectionBody_parts hs
  obtain ⟨hoS, hoO, hoA, hoP, hoD, hoG⟩ := sectionBody_parts ho
  obtain ⟨haS, haO, haA, haP, haD, haG⟩ := sectionBody_parts ha
  obtain ⟨hpS, hpO, hpA, hpP, hpD, hpG⟩ := sectionBody_parts hp
  have hsplit : roundTripText s o a p =
      ("SUBJECTIVE:\n".data ++ (s ++ ['\n'])) ++ rtRestS o a p := by
    simp only [List.append_assoc, List.cons_append, List.nil_append]
    rfl
  have hpre : ∀ t, List.IsSuffix t ("SUBJECTIVE:\n".data ++ (s ++ ['\n'])) → t ≠ [] →
      sectionMatchAt "OBJECTIVE:".data (headerStop "ASSESSMENT".data)
        (t ++ rtRestS o a p) = none :=
    through_append _ _ "SUBJECTIVE:\n".data (s ++ ['\n']) (rtRestS o a p)
      (fun t ht hne => sectionMatchAt_none_through_seg _ _ _ (by decide) _ t ht hne)
      (through_append _ _ s ['\n'] (rtRestS o a p)
        (fun t ht _ => sectionMatchAt_none_nl _ (by decide) hsO t (rtRestS o a p) ht)
        (fun t ht hne => sectionMatchAt_none_through_seg _ _ _ (by decide) _ t ht hne))
  have hpost : ∀ t, List.IsSuffix t (rtRestO a p) → t ≠ [] →
      sectionMatchAt "OBJECTIVE:".data (headerStop "ASSESSMENT".data) t = none :=
    through_end_append _ _ "ASSESSMENT:\n".data (a ++ ("\nPLAN:\n".data ++ p))
      (sectionMatchAt_none_through_seg _ _ _ (by decide) _)
      (through_end_append _ _ a ("\nPLAN:\n".data ++ p)
        (fun t ht _ => sectionMatchAt_none_nl _ (by decide) haO t
          ("PLAN:\n".data ++ p) ht)
        (through_end_append _ _ "\nPLAN:\n".data p
          (sectionMatchAt_none_through_seg _ _ _ (by decide) _)
          (fun t ht _ => sectionMatchAt_none_end _ hpO t ht)))
  rw [hsplit]
  exact sectionFindall_single _ _ ("SUBJECTIVE:\n".data ++ (s ++ ['\n']))
    (rtRestS o a p) (o ++ ['\n']) (rtRestO a p)
    hpre
    (by rw [rtRestS]; simp)
    (matchAt_obj o a p c0 o' ho0 hc0 hoA hoD)
    hpost

/-- The assessment findall over the canonical response returns exactly the
assessment capture. -/
lemma findall_assess (s o a p : List Char)
    (hs : sectionBody s = true) (ho : sectionBody o = true)
    (ha : sectionBody a = true) (hp : sectionBody p = true) :
    sectionFindall "ASSESSMENT:".data (headerStop "PLAN".data)
      (roundTripText s o a p) = [a ++ ['\n']] := by
  obtain ⟨c0, a', ha0, hc0⟩ := sectionBody_head ha
  obtain ⟨hsS, hsO, hsA, hsP, hsD, hsG⟩ := sectionBody_parts hs
  obtain ⟨hoS, hoO, hoA, hoP, hoD, hoG⟩ := sectionBody_parts ho
  obtain ⟨haS, haO, haA, haP, haD, haG⟩ := sectionBody_parts ha
  obtain ⟨hpS, hpO, hpA, hpP, hpD, hpG⟩ := sectionBody_parts hp
  have hsplit : roundTripText s o a p =
      ("SUBJECTIVE:\n".data ++ (s ++ ("\nOBJECTIVE:\n".data ++ (o ++ ['\n'])))) ++
        rtRestO a p := by
    simp only [List.append_assoc, List.cons_append, List.nil_append]
    rfl
  have hpre : ∀ t,
      List.IsSuffix t ("SUBJECTIVE:\n".data ++ (s ++ ("\nOBJECTIVE:\n".data ++ (o ++ ['\n'])))) →
      t ≠ [] →
      sectionMatchAt "ASSESSMENT:".data (headerStop "PLAN".data)
        (t ++ rtRestO a p) = none :=
    through_append _ _ "SUBJECTIVE:\n".data (s ++ ("\nOBJECTIVE:\n".data ++ (o ++ ['\n'])))
      (rtRestO a p)
      (fun t ht hne => sectionMatchAt_none_through_seg _ _ _ (by decide) _ t ht hne)
      (through_append _ _ s ("\nOBJECTIVE:\n".data ++ (o ++ ['\n'])) (rtRestO a p)
        (fun t ht _ => sectionMatchAt_none_nl _ (by decide) hsA t
          ("OBJECTIVE:\n".data ++ ((o ++ ['\n']) ++ rtRestO a p)) ht)
        (through_append _ _ "\nOBJECTIVE:\n".data (o ++ ['\n']) (rtRestO a p)
          (fun t ht hne => sectionMatchAt_none_through_seg _ _ _ (by decide) _ t ht hne)
          (through_append _ _ o ['\n'] (rtRestO a p)
            (fun t ht _ => sectionMatchAt_none_nl _ (by decide) hoA t (rtRestO a p) ht)
            (fun t ht hne => sectionMatchAt_none_through_seg _ _ _ (by decide) _ t ht hne))))
  have hpost : ∀ t, List.IsSuffix t (rtRestA p) → t ≠ [] →
      sectionMatchAt "ASSESSMENT:".data (headerStop "PLAN".data) t = none :=
    through_end_append _ _ "PLAN:\n".data p
      (sectionMatchAt_none_through_seg _ _ _ (by decide) _)
      (fun t ht _ => sectionMatchAt_none_end _ hpA t ht)
  rw [hsplit]
  exact sectionFindall_single _ _
    ("SUBJECTIVE:\n".data ++ (s ++ ("\nOBJECTIVE:\n".data ++ (o ++ ['\n']))))
    (rtRestO a p) (a ++ ['\n']) (rtRestA p)
    hpre
    (by rw [rtRestO]; simp)
    (matchAt_assess a p c0 a' ha0 hc0 haP haD)
    hpost

/-- The plan findall over the canonical response returns exactly the plan
body. -/
lemma findall_plan (s o a p : List Char)
    (hs : sectionBody s = true) (ho : sectionBody o = true)
    (ha : sectionBody a = true) (hp : sectionBody p = true)
    (hend : containsCIL "End of SOAP Note".data p = false)
    (hval : containsCIL "VALIDATION WARNINGS".data p = false) :
    sectionFindall "PLAN:".data planStop (roundTripText s o a p) = [p] := by
  obtain ⟨c0, p', hp0, hc0⟩ := sectionBody_head hp
  obtain ⟨hsS, hsO, hsA, hsP, hsD, hsG⟩ := sectionBody_parts hs
  obtain ⟨hoS, hoO, hoA, hoP, hoD, hoG⟩ := sectionBody_parts ho
  obtain ⟨haS, haO, haA, haP, haD, haG⟩ := sectionBody_parts ha
  obtain ⟨hpS, hpO, hpA, hpP, hpD, hpG⟩ := sectionBody_parts hp
  have hsplit : roundTripText s o a p =
      ("SUBJECTIVE:\n".data ++ (s ++ ("\nOBJECTIVE:\n".data ++ (o ++
        ("\nASSESSMENT:\n".data ++ (a ++ ['\n'])))))) ++ rtRestA p := by
    simp only [List.append_assoc, List.cons_append, List.nil_append]
    rfl
  have hpre : ∀ t,
      List.IsSuffix t ("SUBJECTIVE:\n".data ++ (s ++ ("\nOBJECTIVE:\n".data ++ (o ++
        ("\nASSESSMENT:\n".data ++ (a ++ ['\n'])))))) →
      t ≠ [] →
      sectionMatchAt "PLAN:".data planStop (t ++ rtRestA p) = none :=
    through_append _ _ "SUBJECTIVE:\n".data
      (s ++ ("\nOBJECTIVE:\n".data ++ (o ++ ("\nASSESSMENT:\n".data ++ (a ++ ['\n'])))))
      (rtRestA p)
      (fun t ht hne => sectionMatchAt_none_through_seg _ _ _ (by decide) _ t ht hne)
      (through_append _ _ s
        ("\nOBJECTIVE:\n".data ++ (o ++ ("\nASSESSMENT:\n".data ++ (a ++ ['\n']))))
        (rtRestA p)
        (fun t ht _ => sectionMatchAt_none_nl _ (by decide) hsP t
          ("OBJECTIVE:\n".data ++ ((o ++ ("\nASSESSMENT:\n".data ++ (a ++ ['\n']))) ++
            rtRestA p)) ht)
        (through_append _ _ "\nOBJECTIVE:\n".data
          (o ++ ("\nASSESSMENT:\n".data ++ (a ++ ['\n']))) (rtRestA p)
          (fun t ht hne => sectionMatchAt_none_through_seg _ _ _ (by decide) _ t ht hne)
          (through_append _ _ o ("\nASSESSMENT:\n".data ++ (a ++ ['\n'])) (rtRestA p)
            (fun t ht _ => sectionMatchAt_none_nl _ (by decide) hoP t
              ("ASSESSMENT:\n".data ++ ((a ++ ['\n']) ++ rtRestA p)) ht)
            (through_append _ _ "\nASSESSMENT:\n".data (a ++ ['\n']) (rtRestA p)
              (fun t ht hne => sectionMatchAt_none_through_seg _ _ _ (by decide) _ t ht hne)
              (through_append _ _ a ['\n'] (rtRestA p)
                (fun t ht _ => sectionMatchAt_none_nl _ (by decide) haP t (rtRestA p) ht)
                (fun t ht hne =>
                  sectionMatchAt_none_through_seg _ _ _ (by decide) _ t ht hne))))))
  rw [hsplit]
  exact sectionFindall_single _ _
    ("SUBJECTIVE:\n".data ++ (s ++ ("\nOBJECTIVE:\n".data ++ (o ++
      ("\nASSESSMENT:\n".data ++ (a ++ ['\n']))))))
    (rtRestA p) p []
    hpre
    (by rw [rtRestA]; simp)
    (matchAt_plan p c0 p' hp0 hc0 hpD hend hval)
    (fun t ht hne => absurd (List.suffix_nil.mp ht) hne)

/-- A singleton candidate list with usable cleaned content is selected
as-is. -/
lemma pickSection_single (cap body : List Char) (hclean : cleanContent cap = body)
    (hgood : goodContent body = true) : pickSection [cap] = ⟨body⟩ := by
  unfold pickSection
  rw [List.map_cons, List.map_nil, hclean]
  simp [List.find?, hgood]

/-- C7 amended round-trip: on the canonical response built from four
decoration-free usable bodies, the extractor returns exactly the four
bodies. -/
theorem extractor_roundtrip (s o a p : List Char)
    (hs : sectionBody s = true) (ho : sectionBody o = true)
    (ha : sectionBody a = true) (hp : sectionBody p = true)
    (hcs : cleanContent (s ++ ['\n']) = s)
    (hco : cleanContent (o ++ ['\n']) = o)
    (hca : cleanContent (a ++ ['\n']) = a)
    (hcp : cleanContent p = p)
    (hend : containsCIL "End of SOAP Note".data p = false)
    (hval : containsCIL "VALIDATION WARNINGS".data p = false) :
    parse_soap_response ⟨roundTripText s o a p⟩ =
      { subjective := ⟨s⟩, objective := ⟨o⟩, assessment := ⟨a⟩, plan := ⟨p⟩ } := by
  obtain ⟨hsS, hsO, hsA, hsP, hsD, hsG⟩ := sectionBody_parts hs
  obtain ⟨hoS, hoO, hoA, hoP, hoD, hoG⟩ := sectionBody_parts ho
  obtain ⟨haS, haO, haA, haP, haD, haG⟩ := sectionBody_parts ha
  obtain ⟨hpS, hpO, hpA, hpP, hpD, hpG⟩ := sectionBody_parts hp
  unfold parse_soap_response
  rw [show (String.mk (roundTripText s o a p)).data = roundTripText s o a p from rfl]
  rw [findall_subj s o a p hs ho ha hp, findall_obj s o a p hs ho ha hp,
    findall_assess s o a p hs ho ha hp, findall_plan s o a p hs ho ha hp hend hval]
  rw [pickSection_single _ _ hcs hsG, pickSection_single _ _ hco hoG,
    pickSection_single _ _ hca haG, pickSection_single _ _ hcp hpG]

/-- C7 counterexample check: all four canonical headers with distinct
non-empty bodies, yet every extracted field is the sentinel, because each
cleaned body has length at most 5. -/
theorem extractor_roundtrip_counterexample :
    ("Fever".data ≠ [] ∧ "Tired".data ≠ [] ∧ "Flu A".data ≠ [] ∧ "Rest.".data ≠ []) ∧
    ("Fever".data ≠ "Tired".data ∧ "Fever".data ≠ "Flu A".data ∧
     "Fever".data ≠ "Rest.".data ∧ "Tired".data ≠ "Flu A".data ∧
     "Tired".data ≠ "Rest.".data ∧ "Flu A".data ≠ "Rest.".data) ∧
    parse_soap_response
        ⟨roundTripText "Fever".data "Tired".data "Flu A".data "Rest.".data⟩ =
      { subjective := sentinel, objective := sentinel,
        assessment := sentinel, plan := sentinel } := by
  decide

/-- C7 witness check: concrete usable bodies round-trip exactly. -/
theorem extractor_roundtrip_witness :
    parse_soap_response
        ⟨roundTripText "Fever and chills.".data "Vitals stable.".data
          "Likely viral.".data "Rest and fluids.".data⟩ =
      { subjective := "Fever and chills.", objective := "Vitals stable.",
        assessment := "Likely viral.", plan := "Rest and fluids." } :=
  extractor_roundtrip "Fever and chills.".data "Vitals stable.".data
    "Likely viral.".data "Rest and fluids.".data
    (by decide) (by decide) (by decide) (by decide)
    (by decide) (by decide) (by decide) (by decide)
    (by decide) (by decide)
end MedScribe

namespace MedScribe

/-- C2 amended: whenever `generate` succeeds on a response whose validation
produces at least one warning, the returned note is the parsed note with the
formatted warning block appended to its plan field; nothing else on the note
records the warnings. -/
theorem generate_appends_warnings_to_plan
    (llm : String → String → Except GenExc String) (t lang raw : String)
    (hne : (t.data.isEmpty || (stripL t.data).isEmpty) = false)
    (hllm : llm t lang = .ok raw)
    (hw : (validate_clinical_safety (parse_soap_response raw) ++
        validate_clinical_logic (parse_soap_response raw)).isEmpty = false) :
    generate llm t lang =
      (.ok { parse_soap_response raw with
          plan := (parse_soap_response raw).plan ++
            warningText (validate_clinical_safety (parse_soap_response raw) ++
              validate_clinical_logic (parse_soap_response raw)) }, 1) := by
  unfold generate
  rw [hne, hllm]
  simp [hw]

set_option maxRecDepth 4000 in
/-- C2 witness check: a concrete run in which the high-dose warning block is
appended to the plan. -/
theorem generate_appends_warnings_to_plan_witness :
    ((("hello doctor" : String).data.isEmpty ||
      (stripL ("hello doctor" : String).data).isEmpty) = false) ∧
    ((validate_clinical_safety (parse_soap_response sampleBenzoResponse) ++
      validate_clinical_logic (parse_soap_response sampleBenzoResponse)).isEmpty
        = false) ∧
    generate (fun _ _ => .ok sampleBenzoResponse) "hello doctor" "en" =
      (.ok { parse_soap_response sampleBenzoResponse with
          plan := (parse_soap_response sampleBenzoResponse).plan ++
            warningText (validate_clinical_safety
                (parse_soap_response sampleBenzoResponse) ++
              validate_clinical_logic (parse_soap_response sampleBenzoResponse)) },
        1) :=
  ⟨by decide, by decide,
    generate_appends_warnings_to_plan (fun _ _ => .ok sampleBenzoResponse)
      "hello doctor" "en" sampleBenzoResponse (by decide) rfl (by decide)⟩

set_option maxRecDepth 4000 in
/-- C2 counterexample check: in a run whose validation yields a non-empty
warning list, no field of the returned note equals a warning string
unmodified - a `SOAPNote` carries only the four section strings, so the
formatted plan text is the only trace of the warnings and no separate
structured collection exists on the note. -/
theorem generate_warnings_not_exposed_structured_counterexample :
    sampleBenzoWarnings.isEmpty = false ∧
    generate (fun _ _ => .ok sampleBenzoResponse) "hello doctor" "en" =
      (.ok { subjective := sampleBenzoParsed.subjective,
             objective := sampleBenzoParsed.objective,
             assessment := sampleBenzoParsed.assessment,
             plan := sampleBenzoParsed.plan ++ warningText sampleBenzoWarnings }, 1) ∧
    (∀ w ∈ sampleBenzoWarnings,
      sampleBenzoParsed.subjective ≠ w ∧ sampleBenzoParsed.objective ≠ w ∧
      sampleBenzoParsed.assessment ≠ w ∧
      sampleBenzoParsed.plan ++ warningText sampleBenzoWarnings ≠ w) := by
  decide

/-- C10: an empty or whitespace-only transcription makes `generate` and
`agenerate` raise `SOAPGenerationError` with reason "Empty transcription
provided" before any LLM interaction: the result is that error with zero
collaborator invocations, for every collaborator and language. -/
theorem generate_empty_transcription_guard
    (llm : String → String → Except GenExc String) (t lang : String)
    (h : stripL t.data = []) :
    generate llm t lang =
      (.error (.soapGenError (soapErrorMessage "Empty transcription provided")), 0) ∧
    agenerate llm t lang =
      (.error (.soapGenError (soapErrorMessage "Empty transcription provided")), 0) := by
  have hc : (t.data.isEmpty || (stripL t.data).isEmpty) = true := by
    rw [h]
    simp
  constructor
  · unfold generate
    rw [hc]
    simp
  · unfold agenerate generate
    rw [hc]
    simp

/-- C10 witness check: a whitespace-only transcription is rejected by both
entry points with zero collaborator calls. -/
theorem generate_empty_transcription_guard_witness :
    stripL (" \n " : String).data = [] ∧
    (generate (fun _ _ => .ok "unused") " \n " "en" =
      (.error (.soapGenError (soapErrorMessage "Empty transcription provided")), 0) ∧
    agenerate (fun _ _ => .ok "unused") " \n " "en" =
      (.error (.soapGenError (soapErrorMessage "Empty transcription provided")), 0)) :=
  ⟨by decide,
    generate_empty_transcription_guard (fun _ _ => .ok "unused") " \n " "en"
      (by decide)⟩

end MedScribe
